import Mathlib

/-!
# klcd: a 16x2 HD44780 character LCD driver in 4-bit mode

Shallow embedding of `klcd.c` / `klcd.h`.

Modelling conventions.

* Every driver function is a function returning the list of signal events it
  performs, in program order.  The events are the two primitives the driver
  calls on the platform: `gpio_set_value(pin, value)` and
  `usleep_range(min, max)`.  `printk` diagnostics do not touch the six signal
  lines and produce no event; the places where the source logs are marked in
  the definitions.
* A `char` is represented by its byte value `0 .. 255`; a conversion of an
  `int` or `unsigned int` to `char` is `toChar` (reduction modulo `2^8`).  Every
  use the driver makes of a `char` masks it first (`&`), so the bits above
  bit 7 that integer promotion of a signed `char` would add never matter.
* `unsigned int` values are natural numbers; the only arithmetic on them is
  `counter++`, executed only while `counter < 16`.  The one unsigned
  subtraction that can wrap, `len - 1` in `klcd_write`, is modelled with its
  wrap-around (`klcd_write_lenMinusOne`).
* A pointer into user space is a `UserPtr`: `NULL`, an address that cannot be
  read, or an address with readable contents; `copy_from_user` succeeds exactly
  when the requested bytes are readable.
* A `char *` is `Option (List Nat)`: `none` is `NULL`, `some buf` points at the
  first byte of `buf`, which extends to the end of the object pointed into.
  `msg++` is the tail of the list, `*msg` its head; dereferencing past the end
  of the object has no defined result and is `none` in the model.
-/

namespace Klcd

/-! ## Constants of `klcd.h` -/

def LCD_RS_PIN_NUMBER : Nat := 67
def LCD_E_PIN_NUMBER : Nat := 68
def LCD_DB4_PIN_NUMBER : Nat := 65
def LCD_DB5_PIN_NUMBER : Nat := 46
def LCD_DB6_PIN_NUMBER : Nat := 26
def LCD_DB7_PIN_NUMBER : Nat := 44

def RS_COMMAND_MODE : Nat := 0
def RS_DATA_MODE : Nat := 1

def LCD_FIRST_LINE : Nat := 1
def LCD_SECOND_LINE : Nat := 2

def NUM_CHARS_PER_LINE : Nat := 16

def MAX_BUF_LENGTH : Nat := 50

def IOCTL_CLEAR_DISPLAY : Nat := 48        -- '0'
def IOCTL_PRINT_ON_FIRSTLINE : Nat := 49   -- '1'
def IOCTL_PRINT_ON_SECONDLINE : Nat := 50  -- '2'
def IOCTL_PRINT_WITH_POSITION : Nat := 51  -- '3'
def IOCTL_CURSOR_ON : Nat := 52            -- '4'
def IOCTL_CURSOR_OFF : Nat := 53           -- '5'

/-- The request record `struct ioctl_mesg`. -/
structure ioctl_mesg where
  kbuf : List Nat
  lineNumber : Nat
  nthCharacter : Nat
deriving DecidableEq, Repr

/-! ## Signal events -/

/-- One call of a platform primitive on the signal lines. -/
inductive Event where
  | usleep_range (min max : Nat)
  | gpio_set_value (pin value : Nat)
deriving DecidableEq, Repr

abbrev Trace := List Event

/-- Conversion of an integer value to `char`: the low 8 bits. -/
def toChar (x : Nat) : Nat := x % 256

/-! ## Nibble and byte transfers (`klcd.c` lines 124-210) -/

def lcd_instruction (command : Nat) : Trace :=
  let db7_data := (command &&& (0x1 <<< 7)) >>> 7
  let db6_data := (command &&& (0x1 <<< 6)) >>> 6
  let db5_data := (command &&& (0x1 <<< 5)) >>> 5
  let db4_data := (command &&& (0x1 <<< 4)) >>> 4
  [ Event.usleep_range 2000 3000,
    Event.gpio_set_value LCD_DB7_PIN_NUMBER db7_data,
    Event.gpio_set_value LCD_DB6_PIN_NUMBER db6_data,
    Event.gpio_set_value LCD_DB5_PIN_NUMBER db5_data,
    Event.gpio_set_value LCD_DB4_PIN_NUMBER db4_data,
    Event.gpio_set_value LCD_RS_PIN_NUMBER RS_COMMAND_MODE,
    Event.usleep_range 5 10,
    Event.gpio_set_value LCD_E_PIN_NUMBER 1,
    Event.usleep_range 5 10,
    Event.gpio_set_value LCD_E_PIN_NUMBER 0 ]

def lcd_data (data : Nat) : Trace :=
  -- Part 1. Upper 4 bit data (from bit 7 to bit 4)
  let db7_data := (data &&& (0x1 <<< 7)) >>> 7
  let db6_data := (data &&& (0x1 <<< 6)) >>> 6
  let db5_data := (data &&& (0x1 <<< 5)) >>> 5
  let db4_data := (data &&& (0x1 <<< 4)) >>> 4
  -- Part 2. Lower 4 bit data (from bit 3 to bit 0)
  let db7_low := (data &&& (0x1 <<< 3)) >>> 3
  let db6_low := (data &&& (0x1 <<< 2)) >>> 2
  let db5_low := (data &&& (0x1 <<< 1)) >>> 1
  let db4_low := data &&& 0x1
  [ Event.usleep_range 2000 3000,
    Event.gpio_set_value LCD_DB7_PIN_NUMBER db7_data,
    Event.gpio_set_value LCD_DB6_PIN_NUMBER db6_data,
    Event.gpio_set_value LCD_DB5_PIN_NUMBER db5_data,
    Event.gpio_set_value LCD_DB4_PIN_NUMBER db4_data,
    Event.gpio_set_value LCD_RS_PIN_NUMBER RS_DATA_MODE,
    Event.usleep_range 5 10,
    Event.gpio_set_value LCD_E_PIN_NUMBER 1,
    Event.usleep_range 5 10,
    Event.gpio_set_value LCD_E_PIN_NUMBER 0,
    Event.usleep_range 2000 3000,
    Event.gpio_set_value LCD_DB7_PIN_NUMBER db7_low,
    Event.gpio_set_value LCD_DB6_PIN_NUMBER db6_low,
    Event.gpio_set_value LCD_DB5_PIN_NUMBER db5_low,
    Event.gpio_set_value LCD_DB4_PIN_NUMBER db4_low,
    Event.gpio_set_value LCD_RS_PIN_NUMBER RS_DATA_MODE,
    Event.usleep_range 5 10,
    Event.gpio_set_value LCD_E_PIN_NUMBER 1,
    Event.usleep_range 5 10,
    Event.gpio_set_value LCD_E_PIN_NUMBER 0 ]

/-! ## Controller initialisation (`klcd.c` lines 215-268) -/

def lcd_initialize : Trace :=
  [Event.usleep_range (41*1000) (50*1000)] ++
  lcd_instruction 0x30 ++
  [Event.usleep_range (5*1000) (6*1000)] ++
  lcd_instruction 0x30 ++
  [Event.usleep_range 100 200] ++
  lcd_instruction 0x30 ++
  [Event.usleep_range 100 200] ++
  lcd_instruction 0x20 ++
  [Event.usleep_range 100 200] ++
  lcd_instruction 0x20 ++
  lcd_instruction 0x80 ++
  [Event.usleep_range (41*1000) (50*1000)] ++
  lcd_instruction 0x00 ++
  lcd_instruction 0x80 ++
  [Event.usleep_range 100 200] ++
  lcd_instruction 0x00 ++
  lcd_instruction 0x10 ++
  [Event.usleep_range 100 200] ++
  lcd_instruction 0x00 ++
  lcd_instruction 0x60 ++
  [Event.usleep_range 100 200] ++
  lcd_instruction 0x00 ++
  lcd_instruction 0xF0 ++
  [Event.usleep_range 100 200]

/-! ## Cursor addressing (`klcd.c` lines 405-445) -/

def lcd_setLinePosition (line : Nat) : Trace :=
  if line = 1 then
    lcd_instruction 0x80 ++ lcd_instruction 0x00
  else if line = 2 then
    lcd_instruction 0xC0 ++ lcd_instruction 0x00
  else
    []  -- printk("ERR: Invalid line number. Select either 1 or 2")

def lcd_setPosition (line nthCharacter : Nat) : Trace :=
  if line = 1 then
    let command := toChar (0x80 + toChar nthCharacter)
    lcd_instruction (toChar (command &&& 0xF0)) ++
    lcd_instruction (toChar ((command &&& 0x0F) <<< 4))
  else if line = 2 then
    let command := toChar (0xC0 + toChar nthCharacter)
    lcd_instruction (toChar (command &&& 0xF0)) ++
    lcd_instruction (toChar ((command &&& 0x0F) <<< 4))
  else
    []  -- printk("ERR: Invalid line number. Select either 1 or 2")

/-! ## Mode commands (`klcd.c` lines 450-505) -/

def lcd_clearDisplay : Trace :=
  lcd_instruction 0x00 ++ lcd_instruction 0x10

def lcd_cursor_on : Trace :=
  lcd_instruction 0x00 ++ lcd_instruction 0xF0

def lcd_cursor_off : Trace :=
  lcd_instruction 0x00 ++ lcd_instruction 0xC0

def lcd_display_off : Trace :=
  lcd_instruction 0x00 ++ lcd_instruction 0x80

/-! ## Text rendering (`klcd.c` lines 285-399) -/

/-- First `while` loop of `lcd_print` (lines 304-316).  Returns the events
emitted and the values of `msg`, `counter` and `lineNum` when the loop is left. -/
def lcd_print_firstLoop : List Nat → Nat → Nat → Option (Trace × List Nat × Nat × Nat)
  | [], _, _ => none                                   -- `*msg` outside the buffer
  | c :: msg, counter, lineNum =>
    if c = 0 then
      some ([], c :: msg, counter, lineNum)            -- `*(msg) != '\0'` is false
    else if counter ≥ NUM_CHARS_PER_LINE then
      some ([], c :: msg, 0, 2)                        -- lineNum = 2; counter = 0; break
    else
      match lcd_print_firstLoop msg (counter + 1) lineNum with
      | none => none
      | some (t, vars) => some (lcd_data c ++ t, vars)

/-- Second `while` loop of `lcd_print` (lines 323-333). -/
def lcd_print_secondLoop : List Nat → Nat → Option Trace
  | [], _ => none                                      -- `*msg` outside the buffer
  | c :: msg, counter =>
    if c = 0 then
      some []                                          -- `*(msg) != '\0'` is false
    else if counter ≥ NUM_CHARS_PER_LINE then
      some []                                          -- break
    else
      match lcd_print_secondLoop msg (counter + 1) with
      | none => none
      | some t => some (lcd_data c ++ t)

def lcd_print (msg : Option (List Nat)) (lineNumber : Nat) : Option Trace :=
  match msg with
  | none => some []                                    -- printk; return
  | some msg =>
    let counter := 0
    let lineNum := if lineNumber ≠ 1 ∧ lineNumber ≠ 2 then 1 else lineNumber
    let afterFirst : Option (Trace × List Nat × Nat × Nat) :=
      if lineNum = 1 then
        match lcd_print_firstLoop msg counter lineNum with
        | none => none
        | some (t, vars) => some (lcd_setLinePosition LCD_FIRST_LINE ++ t, vars)
      else
        some ([], msg, counter, lineNum)
    match afterFirst with
    | none => none
    | some (t1, msg, counter, lineNum) =>
      if lineNum = 2 then
        match lcd_print_secondLoop msg counter with
        | none => none
        | some t2 => some (t1 ++ lcd_setLinePosition LCD_SECOND_LINE ++ t2)
      else
        some t1

/-- First `while` loop of `lcd_print_WithPosition` (lines 369-381).  Returns the
events emitted and the values of `msg`, `counter`, `lineNum` and `nthChar` when
the loop is left. -/
def lcd_print_WithPosition_firstLoop :
    List Nat → Nat → Nat → Nat → Option (Trace × List Nat × Nat × Nat × Nat)
  | [], _, _, _ => none                                -- `*msg` outside the buffer
  | c :: msg, counter, lineNum, nthChar =>
    if c = 0 then
      some ([], c :: msg, counter, lineNum, nthChar)   -- `*(msg) != '\0'` is false
    else if counter ≥ NUM_CHARS_PER_LINE then
      some ([], c :: msg, 0, 2, 0)                     -- lineNum = 2; counter = 0; nthChar = 0; break
    else
      match lcd_print_WithPosition_firstLoop msg (counter + 1) lineNum nthChar with
      | none => none
      | some (t, vars) => some (lcd_data c ++ t, vars)

/-- Second `while` loop of `lcd_print_WithPosition` (lines 388-397). -/
def lcd_print_WithPosition_secondLoop : List Nat → Nat → Option Trace
  | [], _ => none                                      -- `*msg` outside the buffer
  | c :: msg, counter =>
    if c = 0 then
      some []                                          -- `*(msg) != '\0'` is false
    else if counter ≥ NUM_CHARS_PER_LINE then
      some []                                          -- break
    else
      match lcd_print_WithPosition_secondLoop msg (counter + 1) with
      | none => none
      | some t => some (lcd_data c ++ t)

def lcd_print_WithPosition (msg : Option (List Nat)) (lineNumber nthCharacter : Nat) :
    Option Trace :=
  match msg with
  | none => some []                                    -- printk; return
  | some msg =>
    let counter := nthCharacter
    let nthChar := nthCharacter
    let lineNum := if lineNumber ≠ 1 ∧ lineNumber ≠ 2 then 1 else lineNumber
    let afterFirst : Option (Trace × List Nat × Nat × Nat × Nat) :=
      if lineNum = 1 then
        match lcd_print_WithPosition_firstLoop msg counter lineNum nthChar with
        | none => none
        | some (t, vars) => some (lcd_setPosition LCD_FIRST_LINE nthChar ++ t, vars)
      else
        some ([], msg, counter, lineNum, nthChar)
    match afterFirst with
    | none => none
    | some (t1, msg, counter, lineNum, nthChar) =>
      if lineNum = 2 then
        match lcd_print_WithPosition_secondLoop msg counter with
        | none => none
        | some t2 => some (t1 ++ lcd_setPosition LCD_SECOND_LINE nthChar ++ t2)
      else
        some t1

/-! ## Command dispatch (`klcd.c` lines 561-611) -/

/-- Error numbers of the kernel (`errno-base.h`, `errno.h`), which the driver
returns negated. -/
def EFAULT : Int := 14
def EINVAL : Int := 22
def ENOTTY : Int := 25

/-- A pointer into user space holding a value of type `α`: `NULL`, an address
from which `copy_from_user` cannot copy the whole value, or an address from
which it copies `a`. -/
inductive UserPtr (α : Type) where
  | NULL
  | unreadable
  | readable (a : α)

/-- Result is the pair of the returned status and the events performed. -/
def klcd_ioctl (ioctl_command : Nat) (arg : UserPtr ioctl_mesg) : Option (Int × Trace) :=
  match arg with
  | UserPtr.NULL => some (-EINVAL, [])                 -- printk; return -EINVAL
  | UserPtr.unreadable => some (-EFAULT, [])           -- printk; return -EFAULT
  | UserPtr.readable ioctl_arguments =>
    let command := toChar ioctl_command                -- switch( (char) ioctl_command )
    if command = IOCTL_CLEAR_DISPLAY then
      some (0, lcd_clearDisplay)
    else if command = IOCTL_PRINT_ON_FIRSTLINE then
      match lcd_print (some ioctl_arguments.kbuf) LCD_FIRST_LINE with
      | none => none
      | some t => some (0, t)
    else if command = IOCTL_PRINT_ON_SECONDLINE then
      match lcd_print (some ioctl_arguments.kbuf) LCD_SECOND_LINE with
      | none => none
      | some t => some (0, t)
    else if command = IOCTL_PRINT_WITH_POSITION then
      match lcd_print_WithPosition (some ioctl_arguments.kbuf)
              ioctl_arguments.lineNumber ioctl_arguments.nthCharacter with
      | none => none
      | some t => some (0, t)
    else if command = IOCTL_CURSOR_ON then
      some (0, lcd_cursor_on)
    else if command = IOCTL_CURSOR_OFF then
      some (0, lcd_cursor_off)
    else
      some (-ENOTTY, [])                               -- default: printk; return -ENOTTY

/-! ## Reference vocabulary of the specification (sections 4.1 and 4.2)

The claims speak of nibble transfers, instructions and characters.  These three
definitions say what those words mean as signal events; the driver functions
above are compared with them. -/

/-- One 4-bit transfer: the nibble on DB7..DB4 (most significant bit on DB7),
the register-select line set to `mode`, then one enable pulse. -/
def sendNibble (nibble mode : Nat) : Trace :=
  [ Event.usleep_range 2000 3000,
    Event.gpio_set_value LCD_DB7_PIN_NUMBER (nibble / 8 % 2),
    Event.gpio_set_value LCD_DB6_PIN_NUMBER (nibble / 4 % 2),
    Event.gpio_set_value LCD_DB5_PIN_NUMBER (nibble / 2 % 2),
    Event.gpio_set_value LCD_DB4_PIN_NUMBER (nibble % 2),
    Event.gpio_set_value LCD_RS_PIN_NUMBER mode,
    Event.usleep_range 5 10,
    Event.gpio_set_value LCD_E_PIN_NUMBER 1,
    Event.usleep_range 5 10,
    Event.gpio_set_value LCD_E_PIN_NUMBER 0 ]

/-- An 8-bit instruction: two command-mode transfers, high nibble first. -/
def sendInstruction (byte : Nat) : Trace :=
  sendNibble (byte / 16 % 16) RS_COMMAND_MODE ++ sendNibble (byte % 16) RS_COMMAND_MODE

/-- An 8-bit character: two data-mode transfers, high nibble first. -/
def sendCharacter (byte : Nat) : Trace :=
  sendNibble (byte / 16 % 16) RS_DATA_MODE ++ sendNibble (byte % 16) RS_DATA_MODE

/-! ## Plain write (`klcd.c` lines 525-559) -/

def ENOMEM : Int := 12

/-- Width in bits of `size_t`, `ssize_t` and `unsigned long` on the platform the
driver is written for (Beaglebone Black, 32-bit ARM). -/
def BITS_PER_LONG : Nat := 32

/-- Largest count the kernel's `vfs_write` hands to a driver's `write`
(`INT_MAX & PAGE_MASK`); every `len` the driver receives is at most this. -/
def MAX_RW_COUNT : Nat := 0x7FFFF000

/-- The macro `MIN(x, y)` of `klcd.h`. -/
def MIN (x y : Nat) : Nat := if x < y then x else y

/-- Conversion of a `size_t` value to the `ssize_t` that `klcd_write` returns. -/
def toSsize (x : Nat) : Int :=
  if x < 2 ^ (BITS_PER_LONG - 1) then (x : Int) else (x : Int) - 2 ^ BITS_PER_LONG

/-- The call `copy_from_user(&kbuf, buf, n)`: the `n` bytes copied, or `none`
when it returns non-zero.  For a byte buffer, `UserPtr.readable bytes` is an
address at which exactly `bytes` can be read; copying nothing always succeeds. -/
def copy_from_user (src : UserPtr (List Nat)) (n : Nat) : Option (List Nat) :=
  match src with
  | UserPtr.readable bytes => if n ≤ bytes.length then some (bytes.take n) else none
  | UserPtr.unreadable => if n = 0 then some [] else none
  | UserPtr.NULL => if n = 0 then some [] else none

/-- The value of `(unsigned long) (len - 1)`: the subtraction is done in
`size_t`, so it wraps to `2 ^ BITS_PER_LONG - 1` when `len` is 0. -/
def klcd_write_lenMinusOne (len : Nat) : Nat :=
  if len = 0 then 2 ^ BITS_PER_LONG - 1 else len - 1

/-- The value of `copyLength` with which `klcd_write` calls `copy_from_user`
(lines 536-539). -/
def klcd_write_copyLength (len : Nat) : Nat :=
  let copyLength := MIN (MAX_BUF_LENGTH - 1) (klcd_write_lenMinusOne len)
  if copyLength < 0 then 0 else copyLength           -- if(copyLength < 0) copyLength = 0;

/-- The contents of `kbuf` after the `memset` and a successful copy of `bytes`
to its start. -/
def klcd_write_kbuf (bytes : List Nat) : List Nat :=
  bytes ++ (List.replicate MAX_BUF_LENGTH 0).drop bytes.length

/-- Result is the pair of the returned status and the events performed. -/
def klcd_write (buf : UserPtr (List Nat)) (len : Nat) : Option (Int × Trace) :=
  match buf with
  | UserPtr.NULL => some (-ENOMEM, [])                 -- printk; return -ENOMEM
  | _ =>
    let copyLength := klcd_write_copyLength len
    match copy_from_user buf copyLength with
    | none => some (-EFAULT, [])                       -- printk; return -EFAULT
    | some bytes =>
      match lcd_print (some (klcd_write_kbuf bytes)) LCD_FIRST_LINE with
      | none => none
      | some t => some (toSsize len, lcd_clearDisplay ++ t)

/-! ## Module initialisation (`klcd.c` lines 45-91 and 628-684) -/

/-- What the kernel answers to the set-up calls of `klcd_init`: the status of
`alloc_chrdev_region` and `cdev_add`, the error carried by the pointer that
`class_create` and `device_create` return (`none` for a valid pointer), and the
status of the three GPIO set-up calls for each pin. -/
structure Platform where
  alloc_chrdev_region : Int
  class_create : Option Int
  device_create : Option Int
  cdev_add : Int
  gpio_request : Nat → Int
  gpio_export : Nat → Int
  gpio_direction_output : Nat → Int

/-- Result is the pair of the returned status and the events performed. -/
def lcd_pin_setup (p : Platform) (pin_number : Nat) : Int × Trace :=
  if p.gpio_request pin_number ≠ 0 then
    (p.gpio_request pin_number, [])                    -- printk; return ret
  else if p.gpio_export pin_number ≠ 0 then
    (p.gpio_export pin_number, [])                     -- printk; return ret
  else if p.gpio_direction_output pin_number ≠ 0 then
    (p.gpio_direction_output pin_number, [])           -- printk; return ret
  else
    (0, [Event.gpio_set_value pin_number 0])

/-- The function is `void`: the status of each `lcd_pin_setup` call is dropped. -/
def lcd_pin_setup_All (p : Platform) : Trace :=
  (lcd_pin_setup p LCD_RS_PIN_NUMBER).2 ++
  (lcd_pin_setup p LCD_E_PIN_NUMBER).2 ++
  (lcd_pin_setup p LCD_DB4_PIN_NUMBER).2 ++
  (lcd_pin_setup p LCD_DB5_PIN_NUMBER).2 ++
  (lcd_pin_setup p LCD_DB6_PIN_NUMBER).2 ++
  (lcd_pin_setup p LCD_DB7_PIN_NUMBER).2

/-- Result is the pair of the returned status and the events performed. -/
def klcd_init (p : Platform) : Int × Trace :=
  if p.alloc_chrdev_region < 0 then
    (-1, [])
  else
    match p.class_create with
    | some err => (err, [])                            -- return PTR_ERR( klcd_class )
    | none =>
      match p.device_create with
      | some err => (err, [])                          -- return PTR_ERR( dev_ret )
      | none =>
        if p.cdev_add < 0 then
          (-1, [])
        else
          (0, lcd_pin_setup_All p ++ lcd_initialize)

/-! ## The controller's view of a trace

The HD44780 is not part of the driver; these definitions state what the
controller makes of the signal events, as far as the claims name it: it samples
RS and DB7..DB4 at each falling edge of E, and in 4-bit mode it assembles two
successive nibbles, the high one first, into one byte. -/

/-- Levels of the six signal lines. -/
structure Lines where
  rs : Nat
  e : Nat
  db4 : Nat
  db5 : Nat
  db6 : Nat
  db7 : Nat
deriving DecidableEq, Repr

/-- All six lines low, the state `lcd_pin_setup` leaves them in. -/
def Lines.low : Lines := ⟨0, 0, 0, 0, 0, 0⟩

/-- The lines after `gpio_set_value(pin, value)`. -/
def Lines.write (s : Lines) (pin value : Nat) : Lines :=
  if pin = LCD_RS_PIN_NUMBER then { s with rs := value }
  else if pin = LCD_E_PIN_NUMBER then { s with e := value }
  else if pin = LCD_DB4_PIN_NUMBER then { s with db4 := value }
  else if pin = LCD_DB5_PIN_NUMBER then { s with db5 := value }
  else if pin = LCD_DB6_PIN_NUMBER then { s with db6 := value }
  else if pin = LCD_DB7_PIN_NUMBER then { s with db7 := value }
  else s

/-- The nibble transfers the controller latches while the trace runs from line
state `s`: at each write that takes E from high to low, the pair of the RS
level and the nibble on DB7..DB4. -/
def latched : Lines → Trace → List (Nat × Nat)
  | _, [] => []
  | s, Event.usleep_range _ _ :: t => latched s t
  | s, Event.gpio_set_value pin value :: t =>
    if pin = LCD_E_PIN_NUMBER ∧ s.e ≠ 0 ∧ value = 0 then
      (s.rs, 8 * s.db7 + 4 * s.db6 + 2 * s.db5 + s.db4) :: latched (s.write pin value) t
    else
      latched (s.write pin value) t

/-- Bytes the controller assembles in 4-bit mode from successive nibble
transfers, each with the RS level of its transfers. -/
def pairNibbles : List (Nat × Nat) → List (Nat × Nat)
  | (rs, high) :: (_, low) :: rest => (rs, 16 * high + low) :: pairNibbles rest
  | _ => []

/-- The bytes a controller in 4-bit mode receives from a trace that starts with
all lines low. -/
def controllerBytes (t : Trace) : List (Nat × Nat) :=
  pairNibbles (latched Lines.low t)

/-- The instruction bytes (RS low) among the bytes the controller receives. -/
def instructionBytes (t : Trace) : List Nat :=
  ((controllerBytes t).filter (fun b => b.1 = RS_COMMAND_MODE)).map Prod.snd

/-- Whether an address instruction byte targets line 1 or line 2 at an offset
in [0, 16). -/
def inGeometry (byte : Nat) : Prop :=
  (0x80 ≤ byte ∧ byte ≤ 0x8F) ∨ (0xC0 ≤ byte ∧ byte ≤ 0xCF)

instance (byte : Nat) : Decidable (inGeometry byte) := by
  unfold inGeometry
  infer_instance

/-- The display memory of the controller and its write cursor. -/
structure Display where
  ddram : Nat → Nat
  cursor : Nat

/-- The character code of a blank cell. -/
def BLANK : Nat := 0x20

/-- Effect of one received byte on the display: the clear instruction 0x01
blanks every cell and homes the cursor, an address instruction (bit 7 set)
moves the cursor, any other instruction leaves the display memory alone, and a
data byte is stored at the cursor, which then advances. -/
def Display.receive (d : Display) (b : Nat × Nat) : Display :=
  if b.1 = RS_COMMAND_MODE then
    if b.2 = 0x01 then ⟨fun _ => BLANK, 0⟩
    else if 0x80 ≤ b.2 then { d with cursor := b.2 - 0x80 }
    else d
  else
    ⟨Function.update d.ddram d.cursor b.2, d.cursor + 1⟩

/-- The display after the controller has received the bytes of a trace. -/
def Display.run (d : Display) (t : Trace) : Display :=
  (controllerBytes t).foldl Display.receive d

/-- The cell shown at `offset` of `line`: line 1 starts at display address 0x00,
line 2 at 0x40. -/
def Display.cell (d : Display) (line offset : Nat) : Nat :=
  d.ddram ((if line = 2 then 0x40 else 0x00) + offset)

/-- The character bytes (RS high) among the bytes the controller receives. -/
def characterBytes (t : Trace) : List Nat :=
  ((controllerBytes t).filter (fun b => b.1 = RS_DATA_MODE)).map Prod.snd

/-! ## Observations on a trace -/

/-- Whether every level written to a signal line is 0 or 1. -/
def binaryLevels (t : Trace) : Bool :=
  t.all (fun ev =>
    match ev with
    | Event.gpio_set_value _ value => decide (value = 0 ∨ value = 1)
    | Event.usleep_range _ _ => true)

/-- What the strobe discipline has to remember while a trace runs: whether E is
high, and which of RS, DB4, DB5, DB6, DB7 have been written since E was last
set low. -/
structure Strobe where
  eHigh : Bool
  rs : Bool
  db4 : Bool
  db5 : Bool
  db6 : Bool
  db7 : Bool
deriving DecidableEq, Repr

/-- E low and none of the five lines written yet. -/
def Strobe.idle : Strobe := ⟨false, false, false, false, false, false⟩

/-- One event under the strobe discipline; `none` when the event breaks it.  A
write to RS or DB4..DB7 is allowed only while E is low; E may rise only after
all five have been written since it was last set low; setting E low ends the
transfer. -/
def Strobe.step (s : Strobe) (ev : Event) : Option Strobe :=
  match ev with
  | Event.usleep_range _ _ => some s
  | Event.gpio_set_value pin value =>
    if pin = LCD_E_PIN_NUMBER then
      if value = 0 then some Strobe.idle
      else if s.eHigh then some s
      else if s.rs && s.db4 && s.db5 && s.db6 && s.db7 then some { s with eHigh := true }
      else none
    else if pin = LCD_RS_PIN_NUMBER then
      if s.eHigh then none else some { s with rs := true }
    else if pin = LCD_DB4_PIN_NUMBER then
      if s.eHigh then none else some { s with db4 := true }
    else if pin = LCD_DB5_PIN_NUMBER then
      if s.eHigh then none else some { s with db5 := true }
    else if pin = LCD_DB6_PIN_NUMBER then
      if s.eHigh then none else some { s with db6 := true }
    else if pin = LCD_DB7_PIN_NUMBER then
      if s.eHigh then none else some { s with db7 := true }
    else some s

/-- The strobe state after a trace, `none` when some event breaks the
discipline. -/
def strobed : Strobe → Trace → Option Strobe
  | s, [] => some s
  | s, ev :: t =>
    match s.step ev with
    | none => none
    | some s' => strobed s' t

/-- Whether a trace that starts with E low keeps the strobe discipline and
ends with E low. -/
def wellStrobed (t : Trace) : Bool :=
  match strobed Strobe.idle t with
  | none => false
  | some s => !s.eHigh

/-! ## Bit-level lemmas -/

theorem bit_extract (x i : Nat) : (x &&& (1 <<< i)) >>> i = x / 2 ^ i % 2 := by
  rw [Nat.one_shiftLeft, Nat.and_two_pow, Nat.shiftRight_eq_div_pow, Nat.toNat_testBit]
  exact Nat.mul_div_cancel _ (Nat.two_pow_pos i)

theorem lcd_instruction_eq_sendNibble (c : Nat) :
    lcd_instruction c = sendNibble (c / 16 % 16) RS_COMMAND_MODE := by
  simp only [lcd_instruction, sendNibble, bit_extract]
  have h7 : c / 2 ^ 7 % 2 = c / 16 % 16 / 8 % 2 := by omega
  have h6 : c / 2 ^ 6 % 2 = c / 16 % 16 / 4 % 2 := by omega
  have h5 : c / 2 ^ 5 % 2 = c / 16 % 16 / 2 % 2 := by omega
  have h4 : c / 2 ^ 4 % 2 = c / 16 % 16 % 2 := by omega
  rw [h7, h6, h5, h4]

theorem lcd_data_eq_sendCharacter (c : Nat) : lcd_data c = sendCharacter c := by
  simp only [lcd_data, sendCharacter, sendNibble, bit_extract, Nat.and_one_is_mod]
  have h7 : c / 2 ^ 7 % 2 = c / 16 % 16 / 8 % 2 := by omega
  have h6 : c / 2 ^ 6 % 2 = c / 16 % 16 / 4 % 2 := by omega
  have h5 : c / 2 ^ 5 % 2 = c / 16 % 16 / 2 % 2 := by omega
  have h4 : c / 2 ^ 4 % 2 = c / 16 % 16 % 2 := by omega
  have h3 : c / 2 ^ 3 % 2 = c % 16 / 8 % 2 := by omega
  have h2 : c / 2 ^ 2 % 2 = c % 16 / 4 % 2 := by omega
  have h1 : c / 2 ^ 1 % 2 = c % 16 / 2 % 2 := by omega
  have h0 : c % 2 = c % 16 % 2 := by omega
  rw [h7, h6, h5, h4, h3, h2, h1, h0]
  rfl

/-! ## The character loops on a NUL-terminated text -/

theorem lcd_print_firstLoop_text (text rest : List Nat) (h : ∀ c ∈ text, c ≠ 0)
    (counter lineNum : Nat) :
    lcd_print_firstLoop (text ++ 0 :: rest) counter lineNum =
      if text.length ≤ 16 - counter then
        some (text.flatMap lcd_data, 0 :: rest, counter + text.length, lineNum)
      else
        some ((text.take (16 - counter)).flatMap lcd_data,
              text.drop (16 - counter) ++ 0 :: rest, 0, 2) := by
  induction text generalizing counter with
  | nil => simp [lcd_print_firstLoop]
  | cons c cs ih =>
    have hc : c ≠ 0 := h c (List.mem_cons_self c cs)
    have hcs : ∀ d ∈ cs, d ≠ 0 := fun d hd => h d (List.mem_cons_of_mem c hd)
    by_cases hge : counter ≥ 16
    · have h0 : 16 - counter = 0 := by omega
      simp [lcd_print_firstLoop, hc, NUM_CHARS_PER_LINE, hge, h0]
    · have hs : 16 - counter = (16 - (counter + 1)) + 1 := by omega
      have hstep : lcd_print_firstLoop ((c :: cs) ++ 0 :: rest) counter lineNum =
          match lcd_print_firstLoop (cs ++ 0 :: rest) (counter + 1) lineNum with
          | none => none
          | some (t, vars) => some (lcd_data c ++ t, vars) := by
        simp [lcd_print_firstLoop, hc, NUM_CHARS_PER_LINE, hge]
      rw [hstep, ih hcs (counter + 1)]
      by_cases hl : cs.length ≤ 16 - (counter + 1)
      · have hl2 : (c :: cs).length ≤ 16 - counter := by simp only [List.length_cons]; omega
        rw [if_pos hl, if_pos hl2]
        simp [List.flatMap_cons, Nat.add_assoc, Nat.add_comm 1]
      · have hl2 : ¬ (c :: cs).length ≤ 16 - counter := by simp only [List.length_cons]; omega
        rw [if_neg hl, if_neg hl2, hs]
        simp [List.flatMap_cons]

theorem lcd_print_secondLoop_text (text rest : List Nat) (h : ∀ c ∈ text, c ≠ 0)
    (counter : Nat) :
    lcd_print_secondLoop (text ++ 0 :: rest) counter =
      some ((text.take (16 - counter)).flatMap lcd_data) := by
  induction text generalizing counter with
  | nil => simp [lcd_print_secondLoop]
  | cons c cs ih =>
    have hc : c ≠ 0 := h c (List.mem_cons_self c cs)
    have hcs : ∀ d ∈ cs, d ≠ 0 := fun d hd => h d (List.mem_cons_of_mem c hd)
    by_cases hge : counter ≥ 16
    · have h0 : 16 - counter = 0 := by omega
      simp [lcd_print_secondLoop, hc, NUM_CHARS_PER_LINE, hge, h0]
    · have hs : 16 - counter = (16 - (counter + 1)) + 1 := by omega
      have hstep : lcd_print_secondLoop ((c :: cs) ++ 0 :: rest) counter =
          match lcd_print_secondLoop (cs ++ 0 :: rest) (counter + 1) with
          | none => none
          | some t => some (lcd_data c ++ t) := by
        simp [lcd_print_secondLoop, hc, NUM_CHARS_PER_LINE, hge]
      rw [hstep, ih hcs (counter + 1), hs]
      simp [List.flatMap_cons]

theorem lcd_print_WithPosition_firstLoop_text (text rest : List Nat) (h : ∀ c ∈ text, c ≠ 0)
    (counter lineNum nthChar : Nat) :
    lcd_print_WithPosition_firstLoop (text ++ 0 :: rest) counter lineNum nthChar =
      if text.length ≤ 16 - counter then
        some (text.flatMap lcd_data, 0 :: rest, counter + text.length, lineNum, nthChar)
      else
        some ((text.take (16 - counter)).flatMap lcd_data,
              text.drop (16 - counter) ++ 0 :: rest, 0, 2, 0) := by
  induction text generalizing counter with
  | nil => simp [lcd_print_WithPosition_firstLoop]
  | cons c cs ih =>
    have hc : c ≠ 0 := h c (List.mem_cons_self c cs)
    have hcs : ∀ d ∈ cs, d ≠ 0 := fun d hd => h d (List.mem_cons_of_mem c hd)
    by_cases hge : counter ≥ 16
    · have h0 : 16 - counter = 0 := by omega
      simp [lcd_print_WithPosition_firstLoop, hc, NUM_CHARS_PER_LINE, hge, h0]
    · have hs : 16 - counter = (16 - (counter + 1)) + 1 := by omega
      have hstep :
          lcd_print_WithPosition_firstLoop ((c :: cs) ++ 0 :: rest) counter lineNum nthChar =
          match lcd_print_WithPosition_firstLoop (cs ++ 0 :: rest) (counter + 1) lineNum nthChar with
          | none => none
          | some (t, vars) => some (lcd_data c ++ t, vars) := by
        simp [lcd_print_WithPosition_firstLoop, hc, NUM_CHARS_PER_LINE, hge]
      rw [hstep, ih hcs (counter + 1)]
      by_cases hl : cs.length ≤ 16 - (counter + 1)
      · have hl2 : (c :: cs).length ≤ 16 - counter := by simp only [List.length_cons]; omega
        rw [if_pos hl, if_pos hl2]
        simp [List.flatMap_cons, Nat.add_assoc, Nat.add_comm 1]
      · have hl2 : ¬ (c :: cs).length ≤ 16 - counter := by simp only [List.length_cons]; omega
        rw [if_neg hl, if_neg hl2, hs]
        simp [List.flatMap_cons]

theorem lcd_print_WithPosition_secondLoop_text (text rest : List Nat) (h : ∀ c ∈ text, c ≠ 0)
    (counter : Nat) :
    lcd_print_WithPosition_secondLoop (text ++ 0 :: rest) counter =
      some ((text.take (16 - counter)).flatMap lcd_data) := by
  induction text generalizing counter with
  | nil => simp [lcd_print_WithPosition_secondLoop]
  | cons c cs ih =>
    have hc : c ≠ 0 := h c (List.mem_cons_self c cs)
    have hcs : ∀ d ∈ cs, d ≠ 0 := fun d hd => h d (List.mem_cons_of_mem c hd)
    by_cases hge : counter ≥ 16
    · have h0 : 16 - counter = 0 := by omega
      simp [lcd_print_WithPosition_secondLoop, hc, NUM_CHARS_PER_LINE, hge, h0]
    · have hs : 16 - counter = (16 - (counter + 1)) + 1 := by omega
      have hstep : lcd_print_WithPosition_secondLoop ((c :: cs) ++ 0 :: rest) counter =
          match lcd_print_WithPosition_secondLoop (cs ++ 0 :: rest) (counter + 1) with
          | none => none
          | some t => some (lcd_data c ++ t) := by
        simp [lcd_print_WithPosition_secondLoop, hc, NUM_CHARS_PER_LINE, hge]
      rw [hstep, ih hcs (counter + 1), hs]
      simp [List.flatMap_cons]

/-! ## Addressing instructions as bytes -/

theorem flatMap_lcd_data (text : List Nat) :
    text.flatMap lcd_data = text.flatMap sendCharacter := by
  have h : lcd_data = sendCharacter := funext lcd_data_eq_sendCharacter
  rw [h]

theorem lcd_setLinePosition_first : lcd_setLinePosition 1 = sendInstruction 0x80 := by
  decide

theorem lcd_setLinePosition_second : lcd_setLinePosition 2 = sendInstruction 0xC0 := by
  decide

theorem lcd_setPosition_first (k : Nat) (hk : k < 16) :
    lcd_setPosition 1 k = sendInstruction (0x80 + k) := by
  interval_cases k <;> decide

theorem lcd_setPosition_second (k : Nat) (hk : k < 16) :
    lcd_setPosition 2 k = sendInstruction (0xC0 + k) := by
  interval_cases k <;> decide

/-! ## The print functions on a NUL-terminated text -/

theorem lcd_print_first_line_text (text rest : List Nat) (h : ∀ c ∈ text, c ≠ 0) :
    lcd_print (some (text ++ 0 :: rest)) 1 =
      if text.length ≤ 16 then
        some (sendInstruction 0x80 ++ text.flatMap sendCharacter)
      else
        some (sendInstruction 0x80 ++ (text.take 16).flatMap sendCharacter ++
              sendInstruction 0xC0 ++ ((text.drop 16).take 16).flatMap sendCharacter) := by
  by_cases hl : text.length ≤ 16
  · simp [lcd_print, lcd_print_firstLoop_text text rest h, hl, LCD_FIRST_LINE,
      lcd_setLinePosition_first, flatMap_lcd_data]
  · simp [lcd_print, lcd_print_firstLoop_text text rest h, hl, LCD_FIRST_LINE, LCD_SECOND_LINE,
      lcd_setLinePosition_first, lcd_setLinePosition_second, flatMap_lcd_data,
      lcd_print_secondLoop_text (text.drop 16) rest
        (fun c hc => h c (List.mem_of_mem_drop hc))]

theorem lcd_print_second_line_text (text rest : List Nat) (h : ∀ c ∈ text, c ≠ 0) :
    lcd_print (some (text ++ 0 :: rest)) 2 =
      some (sendInstruction 0xC0 ++ (text.take 16).flatMap sendCharacter) := by
  simp [lcd_print, lcd_print_secondLoop_text text rest h, LCD_SECOND_LINE,
    lcd_setLinePosition_second, flatMap_lcd_data]

theorem lcd_print_WithPosition_first_line_text (text rest : List Nat) (h : ∀ c ∈ text, c ≠ 0)
    (k : Nat) :
    lcd_print_WithPosition (some (text ++ 0 :: rest)) 1 k =
      if text.length ≤ 16 - k then
        some (lcd_setPosition 1 k ++ text.flatMap sendCharacter)
      else
        some (lcd_setPosition 1 k ++ (text.take (16 - k)).flatMap sendCharacter ++
              lcd_setPosition 2 0 ++ ((text.drop (16 - k)).take 16).flatMap sendCharacter) := by
  by_cases hl : text.length ≤ 16 - k
  · simp [lcd_print_WithPosition, lcd_print_WithPosition_firstLoop_text text rest h, hl,
      LCD_FIRST_LINE, flatMap_lcd_data]
  · simp [lcd_print_WithPosition, lcd_print_WithPosition_firstLoop_text text rest h, hl,
      LCD_FIRST_LINE, LCD_SECOND_LINE, flatMap_lcd_data,
      lcd_print_WithPosition_secondLoop_text (text.drop (16 - k)) rest
        (fun c hc => h c (List.mem_of_mem_drop hc))]

theorem lcd_print_WithPosition_second_line_text (text rest : List Nat)
    (h : ∀ c ∈ text, c ≠ 0) (k : Nat) :
    lcd_print_WithPosition (some (text ++ 0 :: rest)) 2 k =
      some (lcd_setPosition 2 k ++ (text.take (16 - k)).flatMap sendCharacter) := by
  simp [lcd_print_WithPosition, lcd_print_WithPosition_secondLoop_text text rest h,
    LCD_SECOND_LINE, flatMap_lcd_data]

/-! ## Claims C1 - C5: rendering and addressing -/

/-- C1: for every NUL-terminated text of length at most 16, `lcd_print(text, 1)`
issues the line-1 address instruction 0x80 and then exactly the characters of
the text, in order, as data bytes.  The trace is exactly that: it holds no
line-2 address instruction and nothing else. -/
theorem C1_lcd_print_line1_fits (text rest : List Nat)
    (hlen : text.length ≤ 16) (hnz : ∀ c ∈ text, c ≠ 0) :
    lcd_print (some (text ++ 0 :: rest)) 1 =
      some (sendInstruction 0x80 ++ text.flatMap sendCharacter) := by
  rw [lcd_print_first_line_text text rest hnz, if_pos hlen]

theorem C1_lcd_print_line1_fits_witness :
    ([104, 105] : List Nat).length ≤ 16 ∧ (∀ c ∈ ([104, 105] : List Nat), c ≠ 0) ∧
    lcd_print (some ([104, 105] ++ 0 :: [7, 7])) 1 =
      some (sendInstruction 0x80 ++ ([104, 105] : List Nat).flatMap sendCharacter) :=
  ⟨by decide, by decide, C1_lcd_print_line1_fits [104, 105] [7, 7] (by decide) (by decide)⟩

/-- C2: for every NUL-terminated text of length n > 16, `lcd_print(text, 1)`
issues 0x80, the first 16 characters, exactly one line-2 address instruction
0xC0, then the characters at indices 16 .. min(n,32)-1, and nothing else. -/
theorem C2_lcd_print_line1_wraps_once (text rest : List Nat)
    (hlen : 16 < text.length) (hnz : ∀ c ∈ text, c ≠ 0) :
    lcd_print (some (text ++ 0 :: rest)) 1 =
      some (sendInstruction 0x80 ++ (text.take 16).flatMap sendCharacter ++
            sendInstruction 0xC0 ++ ((text.drop 16).take 16).flatMap sendCharacter) ∧
    (text.take 16).length = 16 ∧
    ((text.drop 16).take 16).length = min text.length 32 - 16 := by
  refine ⟨?_, ?_, ?_⟩
  · rw [lcd_print_first_line_text text rest hnz, if_neg (by omega)]
  · simp only [List.length_take]; omega
  · simp only [List.length_take, List.length_drop]; omega

theorem C2_lcd_print_line1_wraps_once_witness :
    16 < (List.replicate 40 65).length ∧ (∀ c ∈ List.replicate 40 65, c ≠ 0) ∧
    (lcd_print (some (List.replicate 40 65 ++ 0 :: [])) 1 =
      some (sendInstruction 0x80 ++ ((List.replicate 40 65).take 16).flatMap sendCharacter ++
            sendInstruction 0xC0 ++
            (((List.replicate 40 65).drop 16).take 16).flatMap sendCharacter) ∧
    ((List.replicate 40 65).take 16).length = 16 ∧
    (((List.replicate 40 65).drop 16).take 16).length =
      min (List.replicate 40 65).length 32 - 16) :=
  ⟨by decide, by decide,
    C2_lcd_print_line1_wraps_once (List.replicate 40 65) [] (by decide) (by decide)⟩

/-- C3: for every NUL-terminated text, `lcd_print(text, 2)` issues exactly one
address instruction, 0xC0, followed by exactly the first min(n,16) characters;
the rest is dropped and no further addressing instruction is issued. -/
theorem C3_lcd_print_line2_truncates (text rest : List Nat) (hnz : ∀ c ∈ text, c ≠ 0) :
    lcd_print (some (text ++ 0 :: rest)) 2 =
      some (sendInstruction 0xC0 ++ (text.take 16).flatMap sendCharacter) ∧
    (text.take 16).length = min text.length 16 := by
  refine ⟨lcd_print_second_line_text text rest hnz, ?_⟩
  simp only [List.length_take]; omega

theorem C3_lcd_print_line2_truncates_witness :
    (∀ c ∈ List.replicate 20 66, c ≠ 0) ∧
    (lcd_print (some (List.replicate 20 66 ++ 0 :: [])) 2 =
      some (sendInstruction 0xC0 ++ ((List.replicate 20 66).take 16).flatMap sendCharacter) ∧
    ((List.replicate 20 66).take 16).length = min (List.replicate 20 66).length 16) :=
  ⟨by decide, C3_lcd_print_line2_truncates (List.replicate 20 66) [] (by decide)⟩

/-- C4: for every offset k in [0,16), `lcd_setPosition(1, k)` issues exactly one
command-mode instruction whose byte is 0x80 + k and `lcd_setPosition(2, k)`
exactly one whose byte is 0xC0 + k, each as two command-mode nibble transfers,
the high nibble first. -/
theorem C4_lcd_setPosition_address (k : Nat) (hk : k < 16) :
    lcd_setPosition 1 k =
      sendNibble ((0x80 + k) / 16) RS_COMMAND_MODE ++
      sendNibble ((0x80 + k) % 16) RS_COMMAND_MODE ∧
    lcd_setPosition 2 k =
      sendNibble ((0xC0 + k) / 16) RS_COMMAND_MODE ++
      sendNibble ((0xC0 + k) % 16) RS_COMMAND_MODE ∧
    (0x80 + k) / 16 = 0x8 ∧ (0x80 + k) % 16 = k ∧
    (0xC0 + k) / 16 = 0xC ∧ (0xC0 + k) % 16 = k := by
  refine ⟨?_, ?_, by omega, by omega, by omega, by omega⟩
  · interval_cases k <;> decide
  · interval_cases k <;> decide

theorem C4_lcd_setPosition_address_witness :
    5 < 16 ∧
    (lcd_setPosition 1 5 =
      sendNibble ((0x80 + 5) / 16) RS_COMMAND_MODE ++
      sendNibble ((0x80 + 5) % 16) RS_COMMAND_MODE ∧
    lcd_setPosition 2 5 =
      sendNibble ((0xC0 + 5) / 16) RS_COMMAND_MODE ++
      sendNibble ((0xC0 + 5) % 16) RS_COMMAND_MODE ∧
    (0x80 + 5) / 16 = 0x8 ∧ (0x80 + 5) % 16 = 5 ∧
    (0xC0 + 5) / 16 = 0xC ∧ (0xC0 + 5) % 16 = 5) :=
  ⟨by decide, C4_lcd_setPosition_address 5 (by decide)⟩

/-- C5: for every NUL-terminated text of length n and every offset k < 16,
`lcd_print_WithPosition(text, 1, k)` issues address instruction 0x80 + k, the
first min(n, 16-k) characters and, if and only if n > 16-k, address instruction
0xC0 followed by the next min(n-(16-k), 16) characters;
`lcd_print_WithPosition(text, 2, k)` issues 0xC0 + k followed by the first
min(n, 16-k) characters and never wraps.  Nothing else is issued. -/
theorem C5_lcd_print_WithPosition_trace (text rest : List Nat) (k : Nat)
    (hk : k < 16) (hnz : ∀ c ∈ text, c ≠ 0) :
    lcd_print_WithPosition (some (text ++ 0 :: rest)) 1 k =
      some (sendInstruction (0x80 + k) ++ (text.take (16 - k)).flatMap sendCharacter ++
            (if 16 - k < text.length then
               sendInstruction 0xC0 ++ ((text.drop (16 - k)).take 16).flatMap sendCharacter
             else [])) ∧
    lcd_print_WithPosition (some (text ++ 0 :: rest)) 2 k =
      some (sendInstruction (0xC0 + k) ++ (text.take (16 - k)).flatMap sendCharacter) ∧
    (text.take (16 - k)).length = min text.length (16 - k) ∧
    ((text.drop (16 - k)).take 16).length = min (text.length - (16 - k)) 16 := by
  refine ⟨?_, ?_, ?_, ?_⟩
  · rw [lcd_print_WithPosition_first_line_text text rest hnz k, lcd_setPosition_first k hk,
      lcd_setPosition_second 0 (by decide)]
    by_cases hl : text.length ≤ 16 - k
    · rw [if_pos hl, if_neg (by omega), List.take_of_length_le hl, List.append_nil]
    · rw [if_neg hl, if_pos (by omega)]
      simp only [List.append_assoc, Nat.add_zero]
  · rw [lcd_print_WithPosition_second_line_text text rest hnz k, lcd_setPosition_second k hk]
  · simp only [List.length_take]; omega
  · simp only [List.length_take, List.length_drop]; omega

theorem C5_lcd_print_WithPosition_trace_witness :
    14 < 16 ∧ (∀ c ∈ ([72, 73, 74] : List Nat), c ≠ 0) ∧
    (lcd_print_WithPosition (some ([72, 73, 74] ++ 0 :: [])) 1 14 =
      some (sendInstruction (0x80 + 14) ++
            (([72, 73, 74] : List Nat).take (16 - 14)).flatMap sendCharacter ++
            (if 16 - 14 < ([72, 73, 74] : List Nat).length then
               sendInstruction 0xC0 ++
                 ((([72, 73, 74] : List Nat).drop (16 - 14)).take 16).flatMap sendCharacter
             else [])) ∧
    lcd_print_WithPosition (some ([72, 73, 74] ++ 0 :: [])) 2 14 =
      some (sendInstruction (0xC0 + 14) ++
            (([72, 73, 74] : List Nat).take (16 - 14)).flatMap sendCharacter) ∧
    (([72, 73, 74] : List Nat).take (16 - 14)).length =
      min ([72, 73, 74] : List Nat).length (16 - 14) ∧
    ((([72, 73, 74] : List Nat).drop (16 - 14)).take 16).length =
      min (([72, 73, 74] : List Nat).length - (16 - 14)) 16) :=
  ⟨by decide, by decide,
    C5_lcd_print_WithPosition_trace [72, 73, 74] [] 14 (by decide) (by decide)⟩

/-! ## Claims C6 - C7: line numbers outside {1, 2} -/

/-- C6: for every text pointer, every offset and every line number not in
{1, 2}, `lcd_print(text, line)` emits exactly the trace of `lcd_print(text, 1)`
and `lcd_print_WithPosition(text, line, offset)` exactly the trace of
`lcd_print_WithPosition(text, 1, offset)`; on a NUL-terminated text both run to
completion and produce that trace (the functions are `void`: there is no error
status to report). -/
theorem C6_invalid_line_prints_as_line1 (msg : Option (List Nat)) (line offset : Nat)
    (h1 : line ≠ 1) (h2 : line ≠ 2) :
    lcd_print msg line = lcd_print msg 1 ∧
    lcd_print_WithPosition msg line offset = lcd_print_WithPosition msg 1 offset ∧
    (∀ text rest : List Nat, (∀ c ∈ text, c ≠ 0) →
      (lcd_print (some (text ++ 0 :: rest)) line).isSome = true ∧
      (lcd_print_WithPosition (some (text ++ 0 :: rest)) line offset).isSome = true) := by
  have hp : lcd_print msg line = lcd_print msg 1 := by
    cases msg with
    | none => rfl
    | some buf => simp [lcd_print, h1, h2]
  have hw : ∀ m : Option (List Nat),
      lcd_print_WithPosition m line offset = lcd_print_WithPosition m 1 offset := by
    intro m
    cases m with
    | none => rfl
    | some buf => simp [lcd_print_WithPosition, h1, h2]
  have hp2 : ∀ m : Option (List Nat), lcd_print m line = lcd_print m 1 := by
    intro m
    cases m with
    | none => rfl
    | some buf => simp [lcd_print, h1, h2]
  refine ⟨hp, hw msg, ?_⟩
  intro text rest hnz
  constructor
  · rw [hp2, lcd_print_first_line_text text rest hnz]
    split <;> rfl
  · rw [hw, lcd_print_WithPosition_first_line_text text rest hnz]
    split <;> rfl

theorem C6_invalid_line_prints_as_line1_witness :
    (7 : Nat) ≠ 1 ∧ (7 : Nat) ≠ 2 ∧
    (lcd_print (some [104, 105, 0]) 7 = lcd_print (some [104, 105, 0]) 1 ∧
    lcd_print_WithPosition (some [104, 105, 0]) 7 3 =
      lcd_print_WithPosition (some [104, 105, 0]) 1 3 ∧
    (∀ text rest : List Nat, (∀ c ∈ text, c ≠ 0) →
      (lcd_print (some (text ++ 0 :: rest)) 7).isSome = true ∧
      (lcd_print_WithPosition (some (text ++ 0 :: rest)) 7 3).isSome = true)) :=
  ⟨by decide, by decide,
    C6_invalid_line_prints_as_line1 (some [104, 105, 0]) 7 3 (by decide) (by decide)⟩

/-- C7 as stated fails: line 3 is not in {1, 2}, yet `lcd_setLinePosition(3)`
issues nothing while `lcd_setLinePosition(1)` issues instruction 0x80, and
`lcd_setPosition(3, 5)` issues nothing while `lcd_setPosition(1, 5)` issues
instruction 0x85. -/
theorem C7_counterexample :
    (3 : Nat) ≠ 1 ∧ (3 : Nat) ≠ 2 ∧
    lcd_setLinePosition 3 = [] ∧ lcd_setLinePosition 1 = sendInstruction 0x80 ∧
    lcd_setLinePosition 3 ≠ lcd_setLinePosition 1 ∧
    lcd_setPosition 3 5 = [] ∧ lcd_setPosition 1 5 = sendInstruction 0x85 ∧
    lcd_setPosition 3 5 ≠ lcd_setPosition 1 5 := by
  decide

/-- C7 amended: for every line number not in {1, 2} and every offset,
`lcd_setLinePosition(line)` and `lcd_setPosition(line, offset)` issue no
instruction at all: their signal trace is empty.  They return normally. -/
theorem C7_addressing_ignores_invalid_line (line offset : Nat)
    (h1 : line ≠ 1) (h2 : line ≠ 2) :
    lcd_setLinePosition line = [] ∧ lcd_setPosition line offset = [] := by
  simp [lcd_setLinePosition, lcd_setPosition, h1, h2]

theorem C7_addressing_ignores_invalid_line_witness :
    (0 : Nat) ≠ 1 ∧ (0 : Nat) ≠ 2 ∧
    (lcd_setLinePosition 0 = [] ∧ lcd_setPosition 0 9 = []) :=
  ⟨by decide, by decide, C7_addressing_ignores_invalid_line 0 9 (by decide) (by decide)⟩

/-! ## Claims C8 - C9: byte transfers and initialisation -/

/-- C8: for every byte d, `lcd_data(d)` performs exactly two 4-bit transfers,
both with RS at 1, each latched by one enable pulse (E set to 1, then to 0);
the first presents bits 7,6,5,4 of d on DB7,DB6,DB5,DB4, the second bits
3,2,1,0, and 16 * (first nibble) + (second nibble) = d. -/
theorem C8_lcd_data_two_nibbles (d : Nat) (hd : d < 256) :
    lcd_data d =
      [ Event.usleep_range 2000 3000,
        Event.gpio_set_value LCD_DB7_PIN_NUMBER (d.testBit 7).toNat,
        Event.gpio_set_value LCD_DB6_PIN_NUMBER (d.testBit 6).toNat,
        Event.gpio_set_value LCD_DB5_PIN_NUMBER (d.testBit 5).toNat,
        Event.gpio_set_value LCD_DB4_PIN_NUMBER (d.testBit 4).toNat,
        Event.gpio_set_value LCD_RS_PIN_NUMBER 1,
        Event.usleep_range 5 10,
        Event.gpio_set_value LCD_E_PIN_NUMBER 1,
        Event.usleep_range 5 10,
        Event.gpio_set_value LCD_E_PIN_NUMBER 0,
        Event.usleep_range 2000 3000,
        Event.gpio_set_value LCD_DB7_PIN_NUMBER (d.testBit 3).toNat,
        Event.gpio_set_value LCD_DB6_PIN_NUMBER (d.testBit 2).toNat,
        Event.gpio_set_value LCD_DB5_PIN_NUMBER (d.testBit 1).toNat,
        Event.gpio_set_value LCD_DB4_PIN_NUMBER (d.testBit 0).toNat,
        Event.gpio_set_value LCD_RS_PIN_NUMBER 1,
        Event.usleep_range 5 10,
        Event.gpio_set_value LCD_E_PIN_NUMBER 1,
        Event.usleep_range 5 10,
        Event.gpio_set_value LCD_E_PIN_NUMBER 0 ] ∧
    lcd_data d = sendNibble (d / 16) RS_DATA_MODE ++ sendNibble (d % 16) RS_DATA_MODE ∧
    16 * (8 * (d.testBit 7).toNat + 4 * (d.testBit 6).toNat +
          2 * (d.testBit 5).toNat + (d.testBit 4).toNat) +
      (8 * (d.testBit 3).toNat + 4 * (d.testBit 2).toNat +
       2 * (d.testBit 1).toNat + (d.testBit 0).toNat) = d ∧
    16 * (d / 16) + d % 16 = d := by
  refine ⟨?_, ?_, ?_, by omega⟩
  · simp only [lcd_data, bit_extract, Nat.and_one_is_mod, Nat.toNat_testBit, RS_DATA_MODE,
      Nat.pow_zero, Nat.div_one]
  · rw [lcd_data_eq_sendCharacter, sendCharacter]
    have h : d / 16 % 16 = d / 16 := by omega
    rw [h]
  · simp only [Nat.toNat_testBit]
    norm_num
    omega

theorem C8_lcd_data_two_nibbles_witness :
    (0xA5 : Nat) < 256 ∧
    lcd_data 0xA5 = sendNibble 0xA RS_DATA_MODE ++ sendNibble 0x5 RS_DATA_MODE :=
  ⟨by decide, (C8_lcd_data_two_nibbles 0xA5 (by decide)).2.1⟩

/-- C9: `lcd_initialize` takes no input and issues, all in command mode and in
this order, the single-nibble transfers 0x3, 0x3, 0x3 and 0x2, then the
two-nibble instructions 0x28, 0x08, 0x01, 0x06 and 0x0F; every other event of
its trace is a delay, so there is no other transfer. -/
theorem C9_lcd_initialize_sequence :
    lcd_initialize =
      [Event.usleep_range 41000 50000] ++
      sendNibble 0x3 RS_COMMAND_MODE ++
      [Event.usleep_range 5000 6000] ++
      sendNibble 0x3 RS_COMMAND_MODE ++
      [Event.usleep_range 100 200] ++
      sendNibble 0x3 RS_COMMAND_MODE ++
      [Event.usleep_range 100 200] ++
      sendNibble 0x2 RS_COMMAND_MODE ++
      [Event.usleep_range 100 200] ++
      sendInstruction 0x28 ++
      [Event.usleep_range 41000 50000] ++
      sendInstruction 0x08 ++
      [Event.usleep_range 100 200] ++
      sendInstruction 0x01 ++
      [Event.usleep_range 100 200] ++
      sendInstruction 0x06 ++
      [Event.usleep_range 100 200] ++
      sendInstruction 0x0F ++
      [Event.usleep_range 100 200] := by
  decide

/-! ## Claim C10: unsupported command codes -/

/-- C10 as stated fails: the command code 0x130 is an unsigned int that is none
of the six codes '0' .. '5', yet `klcd_ioctl` with a valid request returns 0 and
issues the clear instruction, because the switch examines `(char) 0x130`,
which is '0'. -/
theorem C10_counterexample :
    (0x130 : Nat) < 2 ^ 32 ∧
    (0x130 : Nat) ∉ [IOCTL_CLEAR_DISPLAY, IOCTL_PRINT_ON_FIRSTLINE, IOCTL_PRINT_ON_SECONDLINE,
      IOCTL_PRINT_WITH_POSITION, IOCTL_CURSOR_ON, IOCTL_CURSOR_OFF] ∧
    klcd_ioctl 0x130 (UserPtr.readable ⟨List.replicate 50 0, 0, 0⟩) =
      some (0, sendInstruction 0x01) ∧
    klcd_ioctl 0x130 (UserPtr.readable ⟨List.replicate 50 0, 0, 0⟩) ≠ some (-ENOTTY, []) := by
  decide

/-- C10 amended: for every command code whose low 8 bits, the value of
`(char) ioctl_command` that the switch examines, are not one of the six codes
'0' .. '5', `klcd_ioctl` called with a valid request returns -ENOTTY and
performs no signal event at all, so it issues zero instructions. -/
theorem C10_unsupported_command_rejected (ioctl_command : Nat) (request : ioctl_mesg)
    (h : toChar ioctl_command ∉
      [IOCTL_CLEAR_DISPLAY, IOCTL_PRINT_ON_FIRSTLINE, IOCTL_PRINT_ON_SECONDLINE,
       IOCTL_PRINT_WITH_POSITION, IOCTL_CURSOR_ON, IOCTL_CURSOR_OFF]) :
    klcd_ioctl ioctl_command (UserPtr.readable request) = some (-ENOTTY, []) := by
  simp only [List.mem_cons, List.mem_singleton, not_or, List.not_mem_nil, or_false] at h
  obtain ⟨h0, h1, h2, h3, h4, h5⟩ := h
  simp [klcd_ioctl, h0, h1, h2, h3, h4, h5]

theorem C10_unsupported_command_rejected_witness :
    toChar 97 ∉
      [IOCTL_CLEAR_DISPLAY, IOCTL_PRINT_ON_FIRSTLINE, IOCTL_PRINT_ON_SECONDLINE,
       IOCTL_PRINT_WITH_POSITION, IOCTL_CURSOR_ON, IOCTL_CURSOR_OFF] ∧
    klcd_ioctl 97 (UserPtr.readable ⟨[104, 105, 0], 1, 0⟩) = some (-ENOTTY, []) :=
  ⟨by decide, C10_unsupported_command_rejected 97 ⟨[104, 105, 0], 1, 0⟩ (by decide)⟩

/-! ## What the controller latches from the driver's transfers -/

theorem latched_sendNibble (s : Lines) (n m : Nat) (t : Trace) :
    latched s (sendNibble n m ++ t) =
      (m, n % 16) :: latched ⟨m, 0, n % 2, n / 2 % 2, n / 4 % 2, n / 8 % 2⟩ t := by
  have hn : 8 * (n / 8 % 2) + 4 * (n / 4 % 2) + 2 * (n / 2 % 2) + n % 2 = n % 16 := by omega
  simp [sendNibble, latched, Lines.write, LCD_RS_PIN_NUMBER, LCD_E_PIN_NUMBER,
    LCD_DB4_PIN_NUMBER, LCD_DB5_PIN_NUMBER, LCD_DB6_PIN_NUMBER, LCD_DB7_PIN_NUMBER, hn]

theorem pairNibbles_latched_instruction (s : Lines) (b : Nat) (t : Trace) :
    ∃ s', pairNibbles (latched s (sendInstruction b ++ t)) =
      (RS_COMMAND_MODE, b % 256) :: pairNibbles (latched s' t) := by
  have hb : 16 * (b / 16 % 16 % 16) + b % 16 % 16 = b % 256 := by omega
  refine ⟨⟨RS_COMMAND_MODE, 0, b % 16 % 2, b % 16 / 2 % 2, b % 16 / 4 % 2, b % 16 / 8 % 2⟩, ?_⟩
  rw [sendInstruction, List.append_assoc, latched_sendNibble, latched_sendNibble,
    pairNibbles, hb]

theorem pairNibbles_latched_character (s : Lines) (c : Nat) (t : Trace) :
    ∃ s', pairNibbles (latched s (sendCharacter c ++ t)) =
      (RS_DATA_MODE, c % 256) :: pairNibbles (latched s' t) := by
  have hc : 16 * (c / 16 % 16 % 16) + c % 16 % 16 = c % 256 := by omega
  refine ⟨⟨RS_DATA_MODE, 0, c % 16 % 2, c % 16 / 2 % 2, c % 16 / 4 % 2, c % 16 / 8 % 2⟩, ?_⟩
  rw [sendCharacter, List.append_assoc, latched_sendNibble, latched_sendNibble,
    pairNibbles, hc]

theorem pairNibbles_latched_text (text : List Nat) (s : Lines) (t : Trace) :
    ∃ s', pairNibbles (latched s (text.flatMap sendCharacter ++ t)) =
      text.map (fun c => (RS_DATA_MODE, c % 256)) ++ pairNibbles (latched s' t) := by
  induction text generalizing s with
  | nil => exact ⟨s, rfl⟩
  | cons c cs ih =>
    obtain ⟨s1, h1⟩ := pairNibbles_latched_character s c (cs.flatMap sendCharacter ++ t)
    obtain ⟨s2, h2⟩ := ih s1
    refine ⟨s2, ?_⟩
    rw [List.flatMap_cons, List.append_assoc, h1, h2]
    rfl

theorem filter_command_text (text : List Nat) (rest : List (Nat × Nat)) :
    (text.map (fun c => (RS_DATA_MODE, c % 256)) ++ rest).filter
        (fun b => b.1 = RS_COMMAND_MODE) =
      rest.filter (fun b => b.1 = RS_COMMAND_MODE) := by
  induction text with
  | nil => rfl
  | cons c cs ih =>
    simp only [List.map_cons, List.cons_append]
    rw [List.filter_cons_of_neg (by simp [RS_DATA_MODE, RS_COMMAND_MODE])]
    exact ih

theorem instructionBytes_one_line (a : Nat) (text : List Nat) :
    instructionBytes (sendInstruction a ++ text.flatMap sendCharacter) = [a % 256] := by
  obtain ⟨s1, h1⟩ := pairNibbles_latched_instruction Lines.low a (text.flatMap sendCharacter)
  obtain ⟨s2, h2⟩ := pairNibbles_latched_text text s1 []
  rw [List.append_nil] at h2
  rw [instructionBytes, controllerBytes, h1, h2, List.filter_cons_of_pos (by rfl),
    filter_command_text]
  rfl

theorem instructionBytes_two_lines (a b : Nat) (first second : List Nat) :
    instructionBytes (sendInstruction a ++ first.flatMap sendCharacter ++
        sendInstruction b ++ second.flatMap sendCharacter) = [a % 256, b % 256] := by
  obtain ⟨s1, h1⟩ := pairNibbles_latched_instruction Lines.low a
    (first.flatMap sendCharacter ++ (sendInstruction b ++ second.flatMap sendCharacter))
  obtain ⟨s2, h2⟩ := pairNibbles_latched_text first s1
    (sendInstruction b ++ second.flatMap sendCharacter)
  obtain ⟨s3, h3⟩ := pairNibbles_latched_instruction s2 b (second.flatMap sendCharacter)
  obtain ⟨s4, h4⟩ := pairNibbles_latched_text second s3 []
  rw [List.append_nil] at h4
  rw [instructionBytes, controllerBytes, List.append_assoc, List.append_assoc,
    h1, h2, h3, h4, List.filter_cons_of_pos (by rfl), filter_command_text,
    List.filter_cons_of_pos (by rfl), filter_command_text]
  rfl

/-! ## Claim C11: mode commands -/

/-- C11: each mode command issues exactly one fixed instruction byte as two
command-mode nibble transfers, with no address instruction and no data write:
CLEAR issues 0x01, CURSOR_ON 0x0F (the instruction that ends `lcd_initialize`)
and CURSOR_OFF 0x0C, both called directly and dispatched through `klcd_ioctl`
with any request. -/
theorem C11_mode_commands_one_instruction (request : ioctl_mesg) :
    lcd_clearDisplay = sendNibble 0x0 RS_COMMAND_MODE ++ sendNibble 0x1 RS_COMMAND_MODE ∧
    lcd_cursor_on = sendNibble 0x0 RS_COMMAND_MODE ++ sendNibble 0xF RS_COMMAND_MODE ∧
    lcd_cursor_off = sendNibble 0x0 RS_COMMAND_MODE ++ sendNibble 0xC RS_COMMAND_MODE ∧
    controllerBytes lcd_clearDisplay = [(RS_COMMAND_MODE, 0x01)] ∧
    controllerBytes lcd_cursor_on = [(RS_COMMAND_MODE, 0x0F)] ∧
    controllerBytes lcd_cursor_off = [(RS_COMMAND_MODE, 0x0C)] ∧
    klcd_ioctl IOCTL_CLEAR_DISPLAY (UserPtr.readable request) =
      some (0, sendInstruction 0x01) ∧
    klcd_ioctl IOCTL_CURSOR_ON (UserPtr.readable request) =
      some (0, sendInstruction 0x0F) ∧
    klcd_ioctl IOCTL_CURSOR_OFF (UserPtr.readable request) =
      some (0, sendInstruction 0x0C) ∧
    lcd_initialize.drop 129 = lcd_cursor_on ++ [Event.usleep_range 100 200] := by
  refine ⟨by decide, by decide, by decide, by decide, by decide, by decide, ?_, ?_, ?_,
    by decide⟩
  · have h : lcd_clearDisplay = sendInstruction 0x01 := by decide
    simp [klcd_ioctl, toChar, IOCTL_CLEAR_DISPLAY, h]
  · have h : lcd_cursor_on = sendInstruction 0x0F := by decide
    simp [klcd_ioctl, toChar, IOCTL_CLEAR_DISPLAY, IOCTL_PRINT_ON_FIRSTLINE,
      IOCTL_PRINT_ON_SECONDLINE, IOCTL_PRINT_WITH_POSITION, IOCTL_CURSOR_ON, h]
  · have h : lcd_cursor_off = sendInstruction 0x0C := by decide
    simp [klcd_ioctl, toChar, IOCTL_CLEAR_DISPLAY, IOCTL_PRINT_ON_FIRSTLINE,
      IOCTL_PRINT_ON_SECONDLINE, IOCTL_PRINT_WITH_POSITION, IOCTL_CURSOR_ON,
      IOCTL_CURSOR_OFF, h]

/-! ## Claim C13: NULL text -/

/-- C13: for every line and offset, `lcd_print(NULL, line)` and
`lcd_print_WithPosition(NULL, line, offset)` perform no signal event at all (no
address instruction, no data write) and return normally. -/
theorem C13_null_text_is_noop (line offset : Nat) :
    lcd_print none line = some [] ∧ lcd_print_WithPosition none line offset = some [] :=
  ⟨rfl, rfl⟩

/-! ## Claim C16: fields a command does not need -/

/-- C16: for two requests passed to `klcd_ioctl` with the same command code, the
returned status and the trace are the same for codes '1' and '2' whenever the
two requests carry the same text, whatever their line and offset fields, and
for codes '0', '4' and '5' whatever their text, line and offset fields. -/
theorem C16_unused_fields_ignored (text text' : List Nat)
    (line line' offset offset' : Nat) :
    klcd_ioctl IOCTL_PRINT_ON_FIRSTLINE (UserPtr.readable ⟨text, line, offset⟩) =
      klcd_ioctl IOCTL_PRINT_ON_FIRSTLINE (UserPtr.readable ⟨text, line', offset'⟩) ∧
    klcd_ioctl IOCTL_PRINT_ON_SECONDLINE (UserPtr.readable ⟨text, line, offset⟩) =
      klcd_ioctl IOCTL_PRINT_ON_SECONDLINE (UserPtr.readable ⟨text, line', offset'⟩) ∧
    klcd_ioctl IOCTL_CLEAR_DISPLAY (UserPtr.readable ⟨text, line, offset⟩) =
      klcd_ioctl IOCTL_CLEAR_DISPLAY (UserPtr.readable ⟨text', line', offset'⟩) ∧
    klcd_ioctl IOCTL_CURSOR_ON (UserPtr.readable ⟨text, line, offset⟩) =
      klcd_ioctl IOCTL_CURSOR_ON (UserPtr.readable ⟨text', line', offset'⟩) ∧
    klcd_ioctl IOCTL_CURSOR_OFF (UserPtr.readable ⟨text, line, offset⟩) =
      klcd_ioctl IOCTL_CURSOR_OFF (UserPtr.readable ⟨text', line', offset'⟩) := by
  refine ⟨?_, ?_, ?_, ?_, ?_⟩ <;>
    simp [klcd_ioctl, toChar, IOCTL_CLEAR_DISPLAY, IOCTL_PRINT_ON_FIRSTLINE,
      IOCTL_PRINT_ON_SECONDLINE, IOCTL_PRINT_WITH_POSITION, IOCTL_CURSOR_ON, IOCTL_CURSOR_OFF]

/-! ## Claim C19: whole-line print as the offset-0 positioned print -/

theorem lcd_print_WithPosition_firstLoop_zero (buf : List Nat) (counter lineNum : Nat) :
    lcd_print_WithPosition_firstLoop buf counter lineNum 0 =
      match lcd_print_firstLoop buf counter lineNum with
      | none => none
      | some (t, msg, counter', lineNum') => some (t, msg, counter', lineNum', 0) := by
  induction buf generalizing counter with
  | nil => rfl
  | cons c cs ih =>
    by_cases hc : c = 0
    · simp [lcd_print_WithPosition_firstLoop, lcd_print_firstLoop, hc]
    · by_cases hge : counter ≥ NUM_CHARS_PER_LINE
      · simp [lcd_print_WithPosition_firstLoop, lcd_print_firstLoop, hc, hge]
      · simp only [lcd_print_WithPosition_firstLoop, lcd_print_firstLoop, hc, hge, if_false,
          ih (counter + 1)]
        cases lcd_print_firstLoop cs (counter + 1) lineNum with
        | none => rfl
        | some r => rfl

theorem lcd_print_WithPosition_secondLoop_eq (buf : List Nat) (counter : Nat) :
    lcd_print_WithPosition_secondLoop buf counter = lcd_print_secondLoop buf counter := by
  induction buf generalizing counter with
  | nil => rfl
  | cons c cs ih =>
    simp only [lcd_print_WithPosition_secondLoop, lcd_print_secondLoop, ih (counter + 1)]

theorem lcd_setLinePosition_eq_setPosition_zero (line : Nat) :
    lcd_setLinePosition line = lcd_setPosition line 0 := by
  by_cases h1 : line = 1
  · subst h1; decide
  · by_cases h2 : line = 2
    · subst h2; decide
    · simp [lcd_setLinePosition, lcd_setPosition, h1, h2]

/-- C19: a whole-line print is the offset-0 case of the positioned print: for
every text pointer and every line number, `lcd_print(text, line)` emits exactly
the trace of `lcd_print_WithPosition(text, line, 0)`, and
`lcd_setLinePosition(line)` exactly the trace of `lcd_setPosition(line, 0)`. -/
theorem C19_print_is_positioned_print_at_zero (msg : Option (List Nat)) (line : Nat) :
    lcd_print msg line = lcd_print_WithPosition msg line 0 ∧
    lcd_setLinePosition line = lcd_setPosition line 0 := by
  refine ⟨?_, lcd_setLinePosition_eq_setPosition_zero line⟩
  cases msg with
  | none => rfl
  | some buf =>
    simp only [lcd_print, lcd_print_WithPosition, lcd_print_WithPosition_firstLoop_zero,
      lcd_print_WithPosition_secondLoop_eq, lcd_setLinePosition_eq_setPosition_zero]
    by_cases h1 : line = 1
    · subst h1
      simp only [LCD_FIRST_LINE, LCD_SECOND_LINE, if_true]
      cases lcd_print_firstLoop buf 0 (if 1 ≠ 1 ∧ 1 ≠ 2 then 1 else 1) with
      | none => rfl
      | some r => rfl
    · by_cases h2 : line = 2
      · subst h2
        rfl
      · simp only [h1, h2, LCD_FIRST_LINE, LCD_SECOND_LINE, ne_eq, not_false_eq_true,
          and_self, if_true]
        cases lcd_print_firstLoop buf 0 1 with
        | none => rfl
        | some r => rfl

/-! ## Claim C12: the plain write path -/

theorem klcd_write_lenMinusOne_eq_mod (len : Nat) (h : len < 2 ^ 32) :
    klcd_write_lenMinusOne len = (len + 2 ^ 32 - 1) % 2 ^ 32 := by
  unfold klcd_write_lenMinusOne BITS_PER_LONG
  split <;> omega

theorem klcd_write_copyLength_of_pos (len : Nat) (h1 : 1 ≤ len) :
    klcd_write_copyLength len = min 49 (len - 1) := by
  have h0 : len ≠ 0 := by omega
  simp only [klcd_write_copyLength, klcd_write_lenMinusOne, MIN, MAX_BUF_LENGTH, h0,
    Nat.not_lt_zero, if_false]
  split <;> omega

theorem toSsize_of_le (len : Nat) (h : len ≤ MAX_RW_COUNT) : toSsize len = (len : Int) := by
  simp only [MAX_RW_COUNT] at h
  have h2 : len < 2147483648 := by omega
  simp [toSsize, BITS_PER_LONG, h2]

theorem klcd_write_kbuf_terminated (bytes : List Nat) (h : bytes.length ≤ 49) :
    klcd_write_kbuf bytes = bytes ++ 0 :: List.replicate (49 - bytes.length) 0 := by
  have h50 : 50 - bytes.length = (49 - bytes.length) + 1 := by omega
  rw [klcd_write_kbuf, MAX_BUF_LENGTH, List.drop_replicate, h50, List.replicate_succ]

/-- C12 as stated fails: for the 2-byte buffer "AB", which holds no NUL, a write
of length 2 copies only `len - 1 = 1` byte: it clears the display and prints
"A", not "AB" as `lcd_print("AB", 1)` does, and returns 2. -/
theorem C12_counterexample :
    klcd_write (UserPtr.readable [65, 66]) 2 =
      some (2, sendInstruction 0x01 ++ sendInstruction 0x80 ++ sendCharacter 65) ∧
    lcd_print (some [65, 66, 0]) 1 =
      some (sendInstruction 0x80 ++ sendCharacter 65 ++ sendCharacter 66) ∧
    klcd_write (UserPtr.readable [65, 66]) 2 ≠
      some (2, sendInstruction 0x01 ++ sendInstruction 0x80 ++ sendCharacter 65 ++
        sendCharacter 66) := by
  decide

/-- C12 amended: for every user buffer whose first len bytes hold no NUL, with
1 <= len <= 49 and the user copy succeeding, `klcd_write` issues the clear
instruction 0x01 and then prints the first len - 1 bytes of the buffer exactly
as `lcd_print(text, 1)` prints that text, and returns len. -/
theorem C12_write_prints_all_but_last_byte (text more : List Nat) (len : Nat)
    (h1 : 1 ≤ len) (h2 : len ≤ 49) (hlen : text.length = len) (hnz : ∀ c ∈ text, c ≠ 0) :
    ∃ t, lcd_print (some (text.take (len - 1) ++ [0])) 1 = some t ∧
      klcd_write (UserPtr.readable (text ++ more)) len =
        some ((len : Int), sendInstruction 0x01 ++ t) := by
  have hnz' : ∀ c ∈ text.take (len - 1), c ≠ 0 := fun c hc => hnz c (List.mem_of_mem_take hc)
  have hcl : klcd_write_copyLength len = len - 1 := by
    rw [klcd_write_copyLength_of_pos len h1]
    omega
  have hcopy : copy_from_user (UserPtr.readable (text ++ more)) (len - 1) =
      some (text.take (len - 1)) := by
    have hle : len - 1 ≤ (text ++ more).length := by
      simp only [List.length_append]; omega
    simp only [copy_from_user, hle, if_true]
    rw [List.take_append_of_le_length (by omega)]
  have hbl : (text.take (len - 1)).length = len - 1 := by
    simp only [List.length_take]; omega
  have hclear : lcd_clearDisplay = sendInstruction 0x01 := by decide
  have hprint : ∀ rest : List Nat, ∃ t,
      lcd_print (some (text.take (len - 1) ++ 0 :: rest)) 1 = some t ∧
      lcd_print (some (text.take (len - 1) ++ [0])) 1 = some t := by
    intro rest
    rw [lcd_print_first_line_text (text.take (len - 1)) rest hnz',
      lcd_print_first_line_text (text.take (len - 1)) [] hnz']
    split
    · exact ⟨_, rfl, rfl⟩
    · exact ⟨_, rfl, rfl⟩
  obtain ⟨t, ht1, ht2⟩ := hprint (List.replicate (49 - (text.take (len - 1)).length) 0)
  refine ⟨t, ht2, ?_⟩
  simp only [klcd_write, hcl, hcopy, LCD_FIRST_LINE]
  rw [klcd_write_kbuf_terminated _ (by omega), ht1,
    toSsize_of_le len (by simp only [MAX_RW_COUNT]; omega), hclear]

theorem C12_write_prints_all_but_last_byte_witness :
    1 ≤ 3 ∧ 3 ≤ 49 ∧ ([72, 105, 10] : List Nat).length = 3 ∧
    (∀ c ∈ ([72, 105, 10] : List Nat), c ≠ 0) ∧
    ∃ t, lcd_print (some (([72, 105, 10] : List Nat).take (3 - 1) ++ [0])) 1 = some t ∧
      klcd_write (UserPtr.readable ([72, 105, 10] ++ [])) 3 =
        some (((3 : Nat) : Int), sendInstruction 0x01 ++ t) :=
  ⟨by decide, by decide, by decide, by decide,
    C12_write_prints_all_but_last_byte [72, 105, 10] [] 3 (by decide) (by decide)
      (by decide) (by decide)⟩

/-! ## Claim C14: failing dispatches leave the lines alone -/

/-- C15 fails on the code: when `gpio_request` fails for the RS pin (status
-16) and every other set-up call succeeds, `lcd_pin_setup` reports -16 for that
pin, yet `klcd_init` returns 0 and runs `lcd_initialize` after setting the five
other lines low. -/
theorem C15_klcd_init_ignores_pin_setup_failure :
    (lcd_pin_setup ⟨0, none, none, 0, fun pin => if pin = 67 then -16 else 0,
        fun _ => 0, fun _ => 0⟩ LCD_RS_PIN_NUMBER).1 = -16 ∧
    klcd_init ⟨0, none, none, 0, fun pin => if pin = 67 then -16 else 0,
        fun _ => 0, fun _ => 0⟩ =
      (0, [Event.gpio_set_value LCD_E_PIN_NUMBER 0,
           Event.gpio_set_value LCD_DB4_PIN_NUMBER 0,
           Event.gpio_set_value LCD_DB5_PIN_NUMBER 0,
           Event.gpio_set_value LCD_DB6_PIN_NUMBER 0,
           Event.gpio_set_value LCD_DB7_PIN_NUMBER 0] ++ lcd_initialize) := by
  refine ⟨by decide, ?_⟩
  rfl

/-! ## Claim C20: the length of the copy -/

/-- C20 fails on the code at length 0: `write(fd, "ABCDEFG", 0)` makes
`copyLength` 49, not 0, and when 49 bytes can be read at the buffer the driver
copies them, clears the display, prints "ABCDEFG" and returns 0. -/
theorem C20_zero_length_write_copies_49_bytes :
    klcd_write_copyLength 0 = 49 ∧
    klcd_write (UserPtr.readable ([65, 66, 67, 68, 69, 70, 71, 0] ++ List.replicate 41 120)) 0 =
      some (0, sendInstruction 0x01 ++ sendInstruction 0x80 ++
        ([65, 66, 67, 68, 69, 70, 71] : List Nat).flatMap sendCharacter) := by
  refine ⟨by decide, ?_⟩
  rfl

/-! ## The instruction byte of `lcd_setPosition` for any offset -/

set_option maxRecDepth 100000 in
theorem nibble_split : ∀ cmd < 256,
    toChar (cmd &&& 0xF0) / 16 % 16 = cmd / 16 % 16 ∧
    toChar ((cmd &&& 0x0F) <<< 4) / 16 % 16 = cmd % 16 := by
  decide

theorem lcd_instruction_pair (cmd : Nat) (h : cmd < 256) :
    lcd_instruction (toChar (cmd &&& 0xF0)) ++ lcd_instruction (toChar ((cmd &&& 0x0F) <<< 4)) =
      sendInstruction cmd := by
  rw [lcd_instruction_eq_sendNibble, lcd_instruction_eq_sendNibble, (nibble_split cmd h).1,
    (nibble_split cmd h).2, sendInstruction]

theorem toChar_lt (x : Nat) : toChar x < 256 := Nat.mod_lt x (by decide)

theorem lcd_setPosition_first_any (k : Nat) :
    lcd_setPosition 1 k = sendInstruction (toChar (0x80 + toChar k)) := by
  simp only [lcd_setPosition, if_true]
  exact lcd_instruction_pair _ (toChar_lt _)

theorem lcd_setPosition_second_any (k : Nat) :
    lcd_setPosition 2 k = sendInstruction (toChar (0xC0 + toChar k)) := by
  have h21 : ¬ (2 = 1) := by decide
  simp only [lcd_setPosition, h21, if_false, if_true]
  exact lcd_instruction_pair _ (toChar_lt _)

theorem lcd_print_invalid_line (msg : Option (List Nat)) (line : Nat)
    (h1 : line ≠ 1) (h2 : line ≠ 2) : lcd_print msg line = lcd_print msg 1 := by
  cases msg with
  | none => rfl
  | some buf => simp [lcd_print, h1, h2]

theorem lcd_print_WithPosition_invalid_line (msg : Option (List Nat)) (line k : Nat)
    (h1 : line ≠ 1) (h2 : line ≠ 2) :
    lcd_print_WithPosition msg line k = lcd_print_WithPosition msg 1 k := by
  cases msg with
  | none => rfl
  | some buf => simp [lcd_print_WithPosition, h1, h2]

/-! ## Claim C18: address instructions and the display geometry -/

/-- C18 as stated fails: with offset 16 on line 1 and the text "A",
`lcd_print_WithPosition` issues the instruction bytes 0x90 and 0xC0, and 0x90 is
outside 0x80..0x8F and 0xC0..0xCF. -/
theorem C18_counterexample :
    (lcd_print_WithPosition (some [65, 0]) 1 16).map instructionBytes = some [0x90, 0xC0] ∧
    ¬ inGeometry 0x90 := by
  decide

/-- C18 amended: for every NUL-terminated text, every line number and every
offset in [0, 16), every instruction byte issued by `lcd_print` and by
`lcd_print_WithPosition` lies in 0x80..0x8F or 0xC0..0xCF: it addresses line 1
or line 2 at an offset in [0, 16). -/
theorem C18_address_instructions_in_geometry (text rest : List Nat) (line k : Nat)
    (hk : k < 16) (hnz : ∀ c ∈ text, c ≠ 0) :
    (∃ t, lcd_print (some (text ++ 0 :: rest)) line = some t ∧
      ∀ b ∈ instructionBytes t, inGeometry b) ∧
    (∃ t, lcd_print_WithPosition (some (text ++ 0 :: rest)) line k = some t ∧
      ∀ b ∈ instructionBytes t, inGeometry b) := by
  have hbase1 : inGeometry (0x80 % 256) := by decide
  have hbase2 : inGeometry (0xC0 % 256) := by decide
  have hk1 : inGeometry ((0x80 + k) % 256) := by
    unfold inGeometry; omega
  have hk2 : inGeometry ((0xC0 + k) % 256) := by
    unfold inGeometry; omega
  have hline1 : (∃ t, lcd_print (some (text ++ 0 :: rest)) 1 = some t ∧
      ∀ b ∈ instructionBytes t, inGeometry b) ∧
    (∃ t, lcd_print_WithPosition (some (text ++ 0 :: rest)) 1 k = some t ∧
      ∀ b ∈ instructionBytes t, inGeometry b) := by
    constructor
    · rw [lcd_print_first_line_text text rest hnz]
      split
      · refine ⟨_, rfl, ?_⟩
        rw [instructionBytes_one_line]
        intro b hb
        simp only [List.mem_singleton] at hb
        rw [hb]; exact hbase1
      · refine ⟨_, rfl, ?_⟩
        rw [instructionBytes_two_lines]
        intro b hb
        simp only [List.mem_cons, List.mem_singleton, List.not_mem_nil, or_false] at hb
        rcases hb with hb | hb
        · rw [hb]; exact hbase1
        · rw [hb]; exact hbase2
    · rw [lcd_print_WithPosition_first_line_text text rest hnz k, lcd_setPosition_first k hk,
        lcd_setPosition_second 0 (by decide)]
      split
      · refine ⟨_, rfl, ?_⟩
        rw [instructionBytes_one_line]
        intro b hb
        simp only [List.mem_singleton] at hb
        rw [hb]; exact hk1
      · refine ⟨_, rfl, ?_⟩
        rw [instructionBytes_two_lines]
        intro b hb
        simp only [List.mem_cons, List.mem_singleton, List.not_mem_nil, or_false] at hb
        rcases hb with hb | hb
        · rw [hb]; exact hk1
        · rw [hb]; exact hbase2
  by_cases h1 : line = 1
  · subst h1; exact hline1
  · by_cases h2 : line = 2
    · subst h2
      constructor
      · rw [lcd_print_second_line_text text rest hnz]
        refine ⟨_, rfl, ?_⟩
        rw [instructionBytes_one_line]
        intro b hb
        simp only [List.mem_singleton] at hb
        rw [hb]; exact hbase2
      · rw [lcd_print_WithPosition_second_line_text text rest hnz k,
          lcd_setPosition_second k hk]
        refine ⟨_, rfl, ?_⟩
        rw [instructionBytes_one_line]
        intro b hb
        simp only [List.mem_singleton] at hb
        rw [hb]; exact hk2
    · rw [lcd_print_invalid_line _ line h1 h2, lcd_print_WithPosition_invalid_line _ line k h1 h2]
      exact hline1

theorem C18_address_instructions_in_geometry_witness :
    15 < 16 ∧ (∀ c ∈ ([65, 66] : List Nat), c ≠ 0) ∧
    ((∃ t, lcd_print (some ([65, 66] ++ 0 :: [])) 9 = some t ∧
      ∀ b ∈ instructionBytes t, inGeometry b) ∧
    (∃ t, lcd_print_WithPosition (some ([65, 66] ++ 0 :: [])) 9 15 = some t ∧
      ∀ b ∈ instructionBytes t, inGeometry b)) :=
  ⟨by decide, by decide,
    C18_address_instructions_in_geometry [65, 66] [] 9 15 (by decide) (by decide)⟩

/-! ## Claim C17: CLEAR followed by PRINT_LINE1 "hi" -/

/-- C17: dispatching CLEAR and then PRINT_LINE1 with the text "hi" issues
exactly instruction 0x01, instruction 0x80, data byte 'h' (0x68) and data byte
'i' (0x69), and nothing else; the controller receives these four bytes, and on
any display the result shows "hi" at line 1 offsets 0 and 1, blanks in the rest
of line 1 and blanks in every cell of line 2. -/
theorem C17_clear_then_print_hi (rest : List Nat) (line offset : Nat) (d : Display) :
    klcd_ioctl IOCTL_CLEAR_DISPLAY
        (UserPtr.readable ⟨0x68 :: 0x69 :: 0 :: rest, line, offset⟩) =
      some (0, sendInstruction 0x01) ∧
    klcd_ioctl IOCTL_PRINT_ON_FIRSTLINE
        (UserPtr.readable ⟨0x68 :: 0x69 :: 0 :: rest, line, offset⟩) =
      some (0, sendInstruction 0x80 ++ sendCharacter 0x68 ++ sendCharacter 0x69) ∧
    controllerBytes (sendInstruction 0x01 ++
        (sendInstruction 0x80 ++ sendCharacter 0x68 ++ sendCharacter 0x69)) =
      [(RS_COMMAND_MODE, 0x01), (RS_COMMAND_MODE, 0x80),
       (RS_DATA_MODE, 0x68), (RS_DATA_MODE, 0x69)] ∧
    (List.range 16).map ((d.run (sendInstruction 0x01 ++
        (sendInstruction 0x80 ++ sendCharacter 0x68 ++ sendCharacter 0x69))).cell 1) =
      [0x68, 0x69] ++ List.replicate 14 BLANK ∧
    (List.range 16).map ((d.run (sendInstruction 0x01 ++
        (sendInstruction 0x80 ++ sendCharacter 0x68 ++ sendCharacter 0x69))).cell 2) =
      List.replicate 16 BLANK := by
  have hbytes : controllerBytes (sendInstruction 0x01 ++
        (sendInstruction 0x80 ++ sendCharacter 0x68 ++ sendCharacter 0x69)) =
      [(RS_COMMAND_MODE, 0x01), (RS_COMMAND_MODE, 0x80),
       (RS_DATA_MODE, 0x68), (RS_DATA_MODE, 0x69)] := by decide
  have hclear : lcd_clearDisplay = sendInstruction 0x01 := by decide
  have hprint : lcd_print (some (0x68 :: 0x69 :: 0 :: rest)) 1 =
      some (sendInstruction 0x80 ++ sendCharacter 0x68 ++ sendCharacter 0x69) := by
    have h := lcd_print_first_line_text [0x68, 0x69] rest (by decide)
    simpa using h
  refine ⟨?_, ?_, hbytes, ?_, ?_⟩
  · simp [klcd_ioctl, toChar, IOCTL_CLEAR_DISPLAY, hclear]
  · simp [klcd_ioctl, toChar, IOCTL_CLEAR_DISPLAY, IOCTL_PRINT_ON_FIRSTLINE, LCD_FIRST_LINE,
      hprint]
  · rw [Display.run, hbytes]
    rfl
  · rw [Display.run, hbytes]
    rfl

/-! ## Claim C22: the trace of one nibble transfer -/

theorem bit_extract_testBit (x i : Nat) : (x &&& (1 <<< i)) >>> i = (x.testBit i).toNat := by
  rw [bit_extract, Nat.toNat_testBit]

/-- C22: for every byte c, `lcd_instruction(c)` emits exactly a delay of at
least 2000 microseconds, DB7 := bit 7 of c, DB6 := bit 6, DB5 := bit 5,
DB4 := bit 4, RS := 0, a delay of at least 5 microseconds, E := 1, a delay of at
least 5 microseconds, E := 0; only the upper 4 bits of c are used, so
`lcd_instruction(c)` and `lcd_instruction(c & 0xF0)` emit the same trace; and
every value written is 0 or 1. -/
theorem C22_lcd_instruction_trace (c : Nat) :
    lcd_instruction c =
      [ Event.usleep_range 2000 3000,
        Event.gpio_set_value LCD_DB7_PIN_NUMBER (c.testBit 7).toNat,
        Event.gpio_set_value LCD_DB6_PIN_NUMBER (c.testBit 6).toNat,
        Event.gpio_set_value LCD_DB5_PIN_NUMBER (c.testBit 5).toNat,
        Event.gpio_set_value LCD_DB4_PIN_NUMBER (c.testBit 4).toNat,
        Event.gpio_set_value LCD_RS_PIN_NUMBER 0,
        Event.usleep_range 5 10,
        Event.gpio_set_value LCD_E_PIN_NUMBER 1,
        Event.usleep_range 5 10,
        Event.gpio_set_value LCD_E_PIN_NUMBER 0 ] ∧
    lcd_instruction c = lcd_instruction (c &&& 0xF0) ∧
    binaryLevels (lcd_instruction c) = true := by
  have hshape : ∀ x : Nat, lcd_instruction x =
      [ Event.usleep_range 2000 3000,
        Event.gpio_set_value LCD_DB7_PIN_NUMBER (x.testBit 7).toNat,
        Event.gpio_set_value LCD_DB6_PIN_NUMBER (x.testBit 6).toNat,
        Event.gpio_set_value LCD_DB5_PIN_NUMBER (x.testBit 5).toNat,
        Event.gpio_set_value LCD_DB4_PIN_NUMBER (x.testBit 4).toNat,
        Event.gpio_set_value LCD_RS_PIN_NUMBER 0,
        Event.usleep_range 5 10,
        Event.gpio_set_value LCD_E_PIN_NUMBER 1,
        Event.usleep_range 5 10,
        Event.gpio_set_value LCD_E_PIN_NUMBER 0 ] := by
    intro x
    simp only [lcd_instruction, bit_extract_testBit, RS_COMMAND_MODE]
  have h240 : (0xF0 : Nat).testBit 7 = true ∧ (0xF0 : Nat).testBit 6 = true ∧
      (0xF0 : Nat).testBit 5 = true ∧ (0xF0 : Nat).testBit 4 = true := by decide
  refine ⟨hshape c, ?_, ?_⟩
  · rw [hshape c, hshape (c &&& 0xF0)]
    simp only [Nat.testBit_and, h240.1, h240.2.1, h240.2.2.1, h240.2.2.2, Bool.and_true]
  · rw [hshape c]
    cases c.testBit 7 <;> cases c.testBit 6 <;> cases c.testBit 5 <;> cases c.testBit 4 <;> rfl

/-! ## Claim C23: the instruction byte of `lcd_setPosition` -/

/-- C23 as stated fails: `lcd_setPosition(1, 128)` issues the instruction byte
0x00, whose bit 7 is 0, and `lcd_setPosition(2, 65)` issues the byte 0x01: the
very trace of the clear instruction. -/
theorem C23_counterexample :
    instructionBytes (lcd_setPosition 1 128) = [0x00] ∧
    (0x00 : Nat).testBit 7 = false ∧
    instructionBytes (lcd_setPosition 2 65) = [0x01] ∧
    lcd_setPosition 2 65 = lcd_clearDisplay := by
  decide

/-- C23 amended: for line 1 and every offset whose low byte is below 128, and
for line 2 and every offset whose low byte is below 64, the instruction byte
that `lcd_setPosition` issues is the line base plus that low byte and has bit 7
set: it is an address-set instruction, never a clear, entry-mode,
display-control or function-set instruction. -/
theorem C23_setPosition_issues_address_instruction (k1 k2 : Nat)
    (h1 : k1 % 256 < 128) (h2 : k2 % 256 < 64) :
    instructionBytes (lcd_setPosition 1 k1) = [0x80 + k1 % 256] ∧
    (0x80 + k1 % 256).testBit 7 = true ∧ 0x80 + k1 % 256 < 256 ∧
    instructionBytes (lcd_setPosition 2 k2) = [0xC0 + k2 % 256] ∧
    (0xC0 + k2 % 256).testBit 7 = true ∧ 0xC0 + k2 % 256 < 256 := by
  have hone : ∀ a : Nat, instructionBytes (sendInstruction a) = [a % 256] := by
    intro a
    have h := instructionBytes_one_line a []
    simpa using h
  have hb1 : (0x80 + k1 % 256) / 2 ^ 7 % 2 = 1 := by omega
  have hb2 : (0xC0 + k2 % 256) / 2 ^ 7 % 2 = 1 := by omega
  have ht : ∀ x : Nat, x / 2 ^ 7 % 2 = 1 → x.testBit 7 = true := by
    intro x hx
    rw [← Nat.toNat_testBit] at hx
    cases hb : x.testBit 7 with
    | false => rw [hb] at hx; cases hx
    | true => rfl
  refine ⟨?_, ht _ hb1, by omega, ?_, ht _ hb2, by omega⟩
  · rw [lcd_setPosition_first_any, hone]
    simp only [toChar]
    congr 1
    omega
  · rw [lcd_setPosition_second_any, hone]
    simp only [toChar]
    congr 1
    omega

theorem C23_setPosition_issues_address_instruction_witness :
    300 % 256 < 128 ∧ 63 % 256 < 64 ∧
    (instructionBytes (lcd_setPosition 1 300) = [0x80 + 300 % 256] ∧
    (0x80 + 300 % 256).testBit 7 = true ∧ 0x80 + 300 % 256 < 256 ∧
    instructionBytes (lcd_setPosition 2 63) = [0xC0 + 63 % 256] ∧
    (0xC0 + 63 % 256).testBit 7 = true ∧ 0xC0 + 63 % 256 < 256) :=
  ⟨by decide, by decide,
    C23_setPosition_issues_address_instruction 300 63 (by decide) (by decide)⟩

/-! ## Claim C26: no character beyond column 15 -/

/-- C26: for every NUL-terminated text, every line number and every offset k,
`lcd_print_WithPosition` writes, after its first positioning instruction, the
first min(n, 16 - k) characters: at most 16 - k when k < 16 and none when
k >= 16.  Started on a line other than 2 it then issues the line-2 offset-0
instruction exactly when text remains and writes at most 16 further characters
(for k >= 16 these are the first characters of the text); started on line 2 it
writes nothing more. -/
theorem C26_no_character_beyond_column_15 (text rest : List Nat) (line k : Nat)
    (hnz : ∀ c ∈ text, c ≠ 0) :
    (line ≠ 2 →
      lcd_print_WithPosition (some (text ++ 0 :: rest)) line k =
        some (sendInstruction (toChar (0x80 + toChar k)) ++
              (text.take (16 - k)).flatMap sendCharacter ++
              (if 16 - k < text.length then
                 sendInstruction 0xC0 ++ ((text.drop (16 - k)).take 16).flatMap sendCharacter
               else []))) ∧
    (line = 2 →
      lcd_print_WithPosition (some (text ++ 0 :: rest)) line k =
        some (sendInstruction (toChar (0xC0 + toChar k)) ++
              (text.take (16 - k)).flatMap sendCharacter)) ∧
    (text.take (16 - k)).length ≤ 16 - k ∧
    (16 ≤ k → text.take (16 - k) = [] ∧ (text.drop (16 - k)).take 16 = text.take 16) ∧
    ((text.drop (16 - k)).take 16).length ≤ 16 := by
  have hline1 : lcd_print_WithPosition (some (text ++ 0 :: rest)) 1 k =
        some (sendInstruction (toChar (0x80 + toChar k)) ++
              (text.take (16 - k)).flatMap sendCharacter ++
              (if 16 - k < text.length then
                 sendInstruction 0xC0 ++ ((text.drop (16 - k)).take 16).flatMap sendCharacter
               else [])) := by
    rw [lcd_print_WithPosition_first_line_text text rest hnz k, lcd_setPosition_first_any,
      lcd_setPosition_second 0 (by decide)]
    by_cases hl : text.length ≤ 16 - k
    · rw [if_pos hl, if_neg (by omega), List.take_of_length_le hl, List.append_nil]
    · rw [if_neg hl, if_pos (by omega)]
      simp only [List.append_assoc, Nat.add_zero]
  refine ⟨?_, ?_, ?_, ?_, ?_⟩
  · intro h2
    by_cases h1 : line = 1
    · subst h1; exact hline1
    · rw [lcd_print_WithPosition_invalid_line _ line k h1 h2]; exact hline1
  · intro h2
    subst h2
    rw [lcd_print_WithPosition_second_line_text text rest hnz k, lcd_setPosition_second_any]
  · simp only [List.length_take]; omega
  · intro hk
    have h0 : 16 - k = 0 := by omega
    rw [h0]
    exact ⟨rfl, rfl⟩
  · simp only [List.length_take]; omega

theorem C26_no_character_beyond_column_15_witness :
    (∀ c ∈ ([72, 105] : List Nat), c ≠ 0) ∧
    lcd_print_WithPosition (some ([72, 105] ++ 0 :: [])) 1 20 =
      some (sendInstruction (toChar (0x80 + toChar 20)) ++
            (([72, 105] : List Nat).take (16 - 20)).flatMap sendCharacter ++
            (if 16 - 20 < ([72, 105] : List Nat).length then
               sendInstruction 0xC0 ++
                 ((([72, 105] : List Nat).drop (16 - 20)).take 16).flatMap sendCharacter
             else [])) :=
  ⟨by decide,
    (C26_no_character_beyond_column_15 [72, 105] [] 1 20 (by decide)).1 (by decide)⟩

/-! ## The character loops on an arbitrary buffer -/

theorem lcd_print_firstLoop_defined (b : List Nat) (c l : Nat) (h : 16 - c < b.length) :
    ∃ n c' l', n ≤ 16 - c ∧
      lcd_print_firstLoop b c l = some ((b.take n).flatMap lcd_data, b.drop n, c', l') ∧
      (l' = l ∨ (l' = 2 ∧ c' = 0)) := by
  induction b generalizing c with
  | nil => simp at h
  | cons x xs ih =>
    by_cases hx : x = 0
    · exact ⟨0, c, l, Nat.zero_le _, by simp [lcd_print_firstLoop, hx], Or.inl rfl⟩
    · by_cases hge : c ≥ NUM_CHARS_PER_LINE
      · exact ⟨0, 0, 2, Nat.zero_le _, by simp [lcd_print_firstLoop, hx, hge],
          Or.inr ⟨rfl, rfl⟩⟩
      · simp only [NUM_CHARS_PER_LINE] at hge
        have hlen : 16 - (c + 1) < xs.length := by
          simp only [List.length_cons] at h; omega
        obtain ⟨n, c', l', hn, hloop, hl⟩ := ih (c + 1) hlen
        refine ⟨n + 1, c', l', by omega, ?_, hl⟩
        simp [lcd_print_firstLoop, hx, NUM_CHARS_PER_LINE, hge, hloop, List.flatMap_cons]

theorem lcd_print_secondLoop_defined (b : List Nat) (c : Nat) (h : 16 - c < b.length) :
    ∃ n, n ≤ 16 - c ∧ lcd_print_secondLoop b c = some ((b.take n).flatMap lcd_data) := by
  induction b generalizing c with
  | nil => simp at h
  | cons x xs ih =>
    by_cases hx : x = 0
    · exact ⟨0, Nat.zero_le _, by simp [lcd_print_secondLoop, hx]⟩
    · by_cases hge : c ≥ NUM_CHARS_PER_LINE
      · exact ⟨0, Nat.zero_le _, by simp [lcd_print_secondLoop, hx, hge]⟩
      · simp only [NUM_CHARS_PER_LINE] at hge
        have hlen : 16 - (c + 1) < xs.length := by
          simp only [List.length_cons] at h; omega
        obtain ⟨n, hn, hloop⟩ := ih (c + 1) hlen
        refine ⟨n + 1, by omega, ?_⟩
        simp [lcd_print_secondLoop, hx, NUM_CHARS_PER_LINE, hge, hloop, List.flatMap_cons]

theorem lcd_print_WithPosition_firstLoop_defined (b : List Nat) (c l p : Nat)
    (h : 16 - c < b.length) :
    ∃ n c' l' p', n ≤ 16 - c ∧
      lcd_print_WithPosition_firstLoop b c l p =
        some ((b.take n).flatMap lcd_data, b.drop n, c', l', p') ∧
      ((l' = l ∧ p' = p) ∨ (l' = 2 ∧ c' = 0 ∧ p' = 0)) := by
  induction b generalizing c with
  | nil => simp at h
  | cons x xs ih =>
    by_cases hx : x = 0
    · exact ⟨0, c, l, p, Nat.zero_le _, by simp [lcd_print_WithPosition_firstLoop, hx],
        Or.inl ⟨rfl, rfl⟩⟩
    · by_cases hge : c ≥ NUM_CHARS_PER_LINE
      · exact ⟨0, 0, 2, 0, Nat.zero_le _,
          by simp [lcd_print_WithPosition_firstLoop, hx, hge], Or.inr ⟨rfl, rfl, rfl⟩⟩
      · simp only [NUM_CHARS_PER_LINE] at hge
        have hlen : 16 - (c + 1) < xs.length := by
          simp only [List.length_cons] at h; omega
        obtain ⟨n, c', l', p', hn, hloop, hl⟩ := ih (c + 1) hlen
        refine ⟨n + 1, c', l', p', by omega, ?_, hl⟩
        simp [lcd_print_WithPosition_firstLoop, hx, NUM_CHARS_PER_LINE, hge, hloop,
          List.flatMap_cons]

theorem lcd_print_firstLoop_append (b ext : List Nat) (c l : Nat) (t : Trace)
    (m : List Nat) (c' l' : Nat) (h : lcd_print_firstLoop b c l = some (t, m, c', l')) :
    lcd_print_firstLoop (b ++ ext) c l = some (t, m ++ ext, c', l') := by
  induction b generalizing c t with
  | nil => simp [lcd_print_firstLoop] at h
  | cons x xs ih =>
    by_cases hx : x = 0
    · simp only [lcd_print_firstLoop, hx, if_true, Option.some.injEq, Prod.mk.injEq] at h
      obtain ⟨ht, hm, hc, hl⟩ := h
      subst ht; subst hm; subst hc; subst hl
      simp [lcd_print_firstLoop, hx]
    · by_cases hge : c ≥ NUM_CHARS_PER_LINE
      · simp only [lcd_print_firstLoop, hx, hge, if_true, if_false, Option.some.injEq,
          Prod.mk.injEq] at h
        obtain ⟨ht, hm, hc, hl⟩ := h
        subst ht; subst hm; subst hc; subst hl
        simp [lcd_print_firstLoop, hx, hge]
      · simp only [lcd_print_firstLoop, hx, hge, if_false] at h
        cases hr : lcd_print_firstLoop xs (c + 1) l with
        | none => rw [hr] at h; cases h
        | some r =>
          obtain ⟨t1, m1, c1, l1⟩ := r
          rw [hr] at h
          simp only [Option.some.injEq, Prod.mk.injEq] at h
          obtain ⟨ht, hm, hc, hl⟩ := h
          subst ht; subst hm; subst hc; subst hl
          simp [lcd_print_firstLoop, hx, hge, ih (c + 1) t1 hr]

theorem lcd_print_secondLoop_append (b ext : List Nat) (c : Nat) (t : Trace)
    (h : lcd_print_secondLoop b c = some t) :
    lcd_print_secondLoop (b ++ ext) c = some t := by
  induction b generalizing c t with
  | nil => simp [lcd_print_secondLoop] at h
  | cons x xs ih =>
    by_cases hx : x = 0
    · simp only [lcd_print_secondLoop, hx, if_true, Option.some.injEq] at h
      subst h
      simp [lcd_print_secondLoop, hx]
    · by_cases hge : c ≥ NUM_CHARS_PER_LINE
      · simp only [lcd_print_secondLoop, hx, hge, if_true, if_false, Option.some.injEq] at h
        subst h
        simp [lcd_print_secondLoop, hx, hge]
      · simp only [lcd_print_secondLoop, hx, hge, if_false] at h
        cases hr : lcd_print_secondLoop xs (c + 1) with
        | none => rw [hr] at h; cases h
        | some t1 =>
          rw [hr] at h
          simp only [Option.some.injEq] at h
          subst h
          simp [lcd_print_secondLoop, hx, hge, ih (c + 1) t1 hr]

theorem lcd_print_WithPosition_firstLoop_append (b ext : List Nat) (c l p : Nat) (t : Trace)
    (m : List Nat) (c' l' p' : Nat)
    (h : lcd_print_WithPosition_firstLoop b c l p = some (t, m, c', l', p')) :
    lcd_print_WithPosition_firstLoop (b ++ ext) c l p = some (t, m ++ ext, c', l', p') := by
  induction b generalizing c t with
  | nil => simp [lcd_print_WithPosition_firstLoop] at h
  | cons x xs ih =>
    by_cases hx : x = 0
    · simp only [lcd_print_WithPosition_firstLoop, hx, if_true, Option.some.injEq,
        Prod.mk.injEq] at h
      obtain ⟨ht, hm, hc, hl, hp⟩ := h
      subst ht; subst hm; subst hc; subst hl; subst hp
      simp [lcd_print_WithPosition_firstLoop, hx]
    · by_cases hge : c ≥ NUM_CHARS_PER_LINE
      · simp only [lcd_print_WithPosition_firstLoop, hx, hge, if_true, if_false,
          Option.some.injEq, Prod.mk.injEq] at h
        obtain ⟨ht, hm, hc, hl, hp⟩ := h
        subst ht; subst hm; subst hc; subst hl; subst hp
        simp [lcd_print_WithPosition_firstLoop, hx, hge]
      · simp only [lcd_print_WithPosition_firstLoop, hx, hge, if_false] at h
        cases hr : lcd_print_WithPosition_firstLoop xs (c + 1) l p with
        | none => rw [hr] at h; cases h
        | some r =>
          obtain ⟨t1, m1, c1, l1, p1⟩ := r
          rw [hr] at h
          simp only [Option.some.injEq, Prod.mk.injEq] at h
          obtain ⟨ht, hm, hc, hl, hp⟩ := h
          subst ht; subst hm; subst hc; subst hl; subst hp
          simp [lcd_print_WithPosition_firstLoop, hx, hge, ih (c + 1) t1 hr]

/-! ## The print functions on an arbitrary buffer of at least 33 bytes -/

theorem filter_data_text (text : List Nat) (rest : List (Nat × Nat)) :
    (text.map (fun c => (RS_DATA_MODE, c % 256)) ++ rest).filter
        (fun b => b.1 = RS_DATA_MODE) =
      text.map (fun c => (RS_DATA_MODE, c % 256)) ++
        rest.filter (fun b => b.1 = RS_DATA_MODE) := by
  induction text with
  | nil => rfl
  | cons c cs ih =>
    simp only [List.map_cons, List.cons_append]
    rw [List.filter_cons_of_pos (by simp), ih]

theorem characterBytes_one_line (a : Nat) (text : List Nat) :
    characterBytes (sendInstruction a ++ text.flatMap sendCharacter) =
      text.map (fun c => c % 256) := by
  obtain ⟨s1, h1⟩ := pairNibbles_latched_instruction Lines.low a (text.flatMap sendCharacter)
  obtain ⟨s2, h2⟩ := pairNibbles_latched_text text s1 []
  rw [List.append_nil] at h2
  rw [characterBytes, controllerBytes, h1, h2,
    List.filter_cons_of_neg (by simp [RS_DATA_MODE, RS_COMMAND_MODE]), filter_data_text]
  simp [pairNibbles, latched, List.map_map, Function.comp_def]

theorem characterBytes_two_lines (a b : Nat) (first second : List Nat) :
    characterBytes (sendInstruction a ++ first.flatMap sendCharacter ++
        sendInstruction b ++ second.flatMap sendCharacter) =
      first.map (fun c => c % 256) ++ second.map (fun c => c % 256) := by
  obtain ⟨s1, h1⟩ := pairNibbles_latched_instruction Lines.low a
    (first.flatMap sendCharacter ++ (sendInstruction b ++ second.flatMap sendCharacter))
  obtain ⟨s2, h2⟩ := pairNibbles_latched_text first s1
    (sendInstruction b ++ second.flatMap sendCharacter)
  obtain ⟨s3, h3⟩ := pairNibbles_latched_instruction s2 b (second.flatMap sendCharacter)
  obtain ⟨s4, h4⟩ := pairNibbles_latched_text second s3 []
  rw [List.append_nil] at h4
  rw [characterBytes, controllerBytes, List.append_assoc, List.append_assoc,
    h1, h2, h3, h4, List.filter_cons_of_neg (by simp [RS_DATA_MODE, RS_COMMAND_MODE]),
    filter_data_text, List.filter_cons_of_neg (by simp [RS_DATA_MODE, RS_COMMAND_MODE]),
    filter_data_text]
  simp [pairNibbles, latched, List.map_map, Function.comp_def]

/-- The two shapes a print trace can have: one positioning instruction and at
most 16 characters, or that followed by a second positioning instruction and at
most 16 further characters. -/
theorem lcd_print_first_line_shape (b : List Nat) (h : 33 ≤ b.length) :
    ∃ first second : List Nat, first.length ≤ 16 ∧ second.length ≤ 16 ∧
      (lcd_print (some b) 1 = some (sendInstruction 0x80 ++ first.flatMap sendCharacter) ∨
       lcd_print (some b) 1 = some (sendInstruction 0x80 ++ first.flatMap sendCharacter ++
          sendInstruction 0xC0 ++ second.flatMap sendCharacter)) := by
  obtain ⟨n, c', l', hn, hloop, hl⟩ := lcd_print_firstLoop_defined b 0 1 (by omega)
  rcases hl with hl | ⟨hl, hc⟩
  · subst hl
    refine ⟨b.take n, [], by simp only [List.length_take]; omega, by simp, Or.inl ?_⟩
    simp [lcd_print, LCD_FIRST_LINE, hloop, lcd_setLinePosition_first, flatMap_lcd_data]
  · subst hl; subst hc
    obtain ⟨n2, hn2, hloop2⟩ := lcd_print_secondLoop_defined (b.drop n) 0
      (by simp only [List.length_drop]; omega)
    refine ⟨b.take n, (b.drop n).take n2, by simp only [List.length_take]; omega,
      by simp only [List.length_take]; omega, Or.inr ?_⟩
    simp [lcd_print, LCD_FIRST_LINE, LCD_SECOND_LINE, hloop, hloop2, lcd_setLinePosition_first,
      lcd_setLinePosition_second, flatMap_lcd_data]

theorem lcd_print_second_line_shape (b : List Nat) (h : 33 ≤ b.length) :
    ∃ first : List Nat, first.length ≤ 16 ∧
      lcd_print (some b) 2 = some (sendInstruction 0xC0 ++ first.flatMap sendCharacter) := by
  obtain ⟨n, hn, hloop⟩ := lcd_print_secondLoop_defined b 0 (by omega)
  refine ⟨b.take n, by simp only [List.length_take]; omega, ?_⟩
  simp [lcd_print, LCD_SECOND_LINE, hloop, lcd_setLinePosition_second, flatMap_lcd_data]

theorem lcd_print_WithPosition_first_line_shape (b : List Nat) (k : Nat) (h : 33 ≤ b.length) :
    ∃ first second : List Nat, first.length ≤ 16 - k ∧ second.length ≤ 16 ∧
      (lcd_print_WithPosition (some b) 1 k =
          some (sendInstruction (toChar (0x80 + toChar k)) ++ first.flatMap sendCharacter) ∨
       lcd_print_WithPosition (some b) 1 k =
          some (sendInstruction (toChar (0x80 + toChar k)) ++ first.flatMap sendCharacter ++
            sendInstruction 0xC0 ++ second.flatMap sendCharacter)) := by
  obtain ⟨n, c', l', p', hn, hloop, hl⟩ :=
    lcd_print_WithPosition_firstLoop_defined b k 1 k (by omega)
  rcases hl with ⟨hl, hp⟩ | ⟨hl, hc, hp⟩
  · subst hl; subst hp
    refine ⟨b.take n, [], by simp only [List.length_take]; omega, by simp, Or.inl ?_⟩
    simp [lcd_print_WithPosition, LCD_FIRST_LINE, hloop, lcd_setPosition_first_any,
      flatMap_lcd_data]
  · subst hl; subst hc; subst hp
    obtain ⟨n2, hn2, hloop2⟩ := lcd_print_secondLoop_defined (b.drop n) 0
      (by simp only [List.length_drop]; omega)
    refine ⟨b.take n, (b.drop n).take n2, by simp only [List.length_take]; omega,
      by simp only [List.length_take]; omega, Or.inr ?_⟩
    have h20 : lcd_setPosition 2 0 = sendInstruction 0xC0 := by decide
    simp [lcd_print_WithPosition, LCD_FIRST_LINE, LCD_SECOND_LINE, hloop,
      lcd_print_WithPosition_secondLoop_eq, hloop2, lcd_setPosition_first_any, h20,
      flatMap_lcd_data]

theorem lcd_print_WithPosition_second_line_shape (b : List Nat) (k : Nat)
    (h : 33 ≤ b.length) :
    ∃ first : List Nat, first.length ≤ 16 - k ∧
      lcd_print_WithPosition (some b) 2 k =
        some (sendInstruction (toChar (0xC0 + toChar k)) ++ first.flatMap sendCharacter) := by
  obtain ⟨n, hn, hloop⟩ := lcd_print_secondLoop_defined b k (by omega)
  refine ⟨b.take n, by simp only [List.length_take]; omega, ?_⟩
  simp [lcd_print_WithPosition, LCD_SECOND_LINE, lcd_print_WithPosition_secondLoop_eq, hloop,
    lcd_setPosition_second_any, flatMap_lcd_data]

theorem lcd_print_line1_eq (b : List Nat) :
    lcd_print (some b) 1 =
      match lcd_print_firstLoop b 0 1 with
      | none => none
      | some (t1, m, c, l) =>
        if l = 2 then
          match lcd_print_secondLoop m c with
          | none => none
          | some t2 => some (lcd_setLinePosition 1 ++ t1 ++ lcd_setLinePosition 2 ++ t2)
        else some (lcd_setLinePosition 1 ++ t1) := by
  have e : (if (1 : Nat) ≠ 1 ∧ (1 : Nat) ≠ 2 then (1 : Nat) else 1) = 1 := by decide
  simp only [lcd_print, e, LCD_FIRST_LINE, LCD_SECOND_LINE, if_true]
  cases lcd_print_firstLoop b 0 1 with
  | none => rfl
  | some r =>
    obtain ⟨t1, m, c, l⟩ := r
    rfl

theorem lcd_print_line2_eq (b : List Nat) :
    lcd_print (some b) 2 =
      match lcd_print_secondLoop b 0 with
      | none => none
      | some t2 => some (lcd_setLinePosition 2 ++ t2) := by
  have e : (if (2 : Nat) ≠ 1 ∧ (2 : Nat) ≠ 2 then (1 : Nat) else 2) = 2 := by decide
  have e2 : ¬ ((2 : Nat) = 1) := by decide
  simp only [lcd_print, e, e2, LCD_SECOND_LINE, if_true, if_false, List.nil_append]

theorem lcd_print_WithPosition_line1_eq (b : List Nat) (k : Nat) :
    lcd_print_WithPosition (some b) 1 k =
      match lcd_print_WithPosition_firstLoop b k 1 k with
      | none => none
      | some (t1, m, c, l, p) =>
        if l = 2 then
          match lcd_print_secondLoop m c with
          | none => none
          | some t2 => some (lcd_setPosition 1 k ++ t1 ++ lcd_setPosition 2 p ++ t2)
        else some (lcd_setPosition 1 k ++ t1) := by
  have e : (if (1 : Nat) ≠ 1 ∧ (1 : Nat) ≠ 2 then (1 : Nat) else 1) = 1 := by decide
  simp only [lcd_print_WithPosition, e, LCD_FIRST_LINE, LCD_SECOND_LINE, if_true,
    lcd_print_WithPosition_secondLoop_eq]
  cases lcd_print_WithPosition_firstLoop b k 1 k with
  | none => rfl
  | some r =>
    obtain ⟨t1, m, c, l, p⟩ := r
    rfl

theorem lcd_print_WithPosition_line2_eq (b : List Nat) (k : Nat) :
    lcd_print_WithPosition (some b) 2 k =
      match lcd_print_secondLoop b k with
      | none => none
      | some t2 => some (lcd_setPosition 2 k ++ t2) := by
  have e : (if (2 : Nat) ≠ 1 ∧ (2 : Nat) ≠ 2 then (1 : Nat) else 2) = 2 := by decide
  have e2 : ¬ ((2 : Nat) = 1) := by decide
  simp only [lcd_print_WithPosition, e, e2, LCD_SECOND_LINE, if_true, if_false,
    List.nil_append, lcd_print_WithPosition_secondLoop_eq]

theorem lcd_print_append (b ext : List Nat) (line : Nat) (t : Trace)
    (h : lcd_print (some b) line = some t) : lcd_print (some (b ++ ext)) line = some t := by
  have key1 : lcd_print (some b) 1 = some t → lcd_print (some (b ++ ext)) 1 = some t := by
    intro h
    rw [lcd_print_line1_eq] at h ⊢
    cases hr : lcd_print_firstLoop b 0 1 with
    | none => rw [hr] at h; cases h
    | some r =>
      obtain ⟨t1, m, c, l⟩ := r
      rw [hr] at h
      rw [lcd_print_firstLoop_append b ext 0 1 t1 m c l hr]
      dsimp only at h ⊢
      by_cases hl : l = 2
      · rw [if_pos hl] at h ⊢
        cases hr2 : lcd_print_secondLoop m c with
        | none => rw [hr2] at h; cases h
        | some t2 =>
          rw [hr2] at h
          rw [lcd_print_secondLoop_append m ext c t2 hr2]
          exact h
      · rw [if_neg hl] at h ⊢
        exact h
  have key2 : lcd_print (some b) 2 = some t → lcd_print (some (b ++ ext)) 2 = some t := by
    intro h
    rw [lcd_print_line2_eq] at h ⊢
    cases hr2 : lcd_print_secondLoop b 0 with
    | none => rw [hr2] at h; cases h
    | some t2 =>
      rw [hr2] at h
      rw [lcd_print_secondLoop_append b ext 0 t2 hr2]
      exact h
  by_cases h1 : line = 1
  · subst h1; exact key1 h
  · by_cases h2 : line = 2
    · subst h2; exact key2 h
    · rw [lcd_print_invalid_line _ line h1 h2] at h ⊢
      exact key1 h

theorem lcd_print_WithPosition_append (b ext : List Nat) (line k : Nat) (t : Trace)
    (h : lcd_print_WithPosition (some b) line k = some t) :
    lcd_print_WithPosition (some (b ++ ext)) line k = some t := by
  have key1 : lcd_print_WithPosition (some b) 1 k = some t →
      lcd_print_WithPosition (some (b ++ ext)) 1 k = some t := by
    intro h
    rw [lcd_print_WithPosition_line1_eq] at h ⊢
    cases hr : lcd_print_WithPosition_firstLoop b k 1 k with
    | none => rw [hr] at h; cases h
    | some r =>
      obtain ⟨t1, m, c, l, p⟩ := r
      rw [hr] at h
      rw [lcd_print_WithPosition_firstLoop_append b ext k 1 k t1 m c l p hr]
      dsimp only at h ⊢
      by_cases hl : l = 2
      · rw [if_pos hl] at h ⊢
        cases hr2 : lcd_print_secondLoop m c with
        | none => rw [hr2] at h; cases h
        | some t2 =>
          rw [hr2] at h
          rw [lcd_print_secondLoop_append m ext c t2 hr2]
          exact h
      · rw [if_neg hl] at h ⊢
        exact h
  have key2 : lcd_print_WithPosition (some b) 2 k = some t →
      lcd_print_WithPosition (some (b ++ ext)) 2 k = some t := by
    intro h
    rw [lcd_print_WithPosition_line2_eq] at h ⊢
    cases hr2 : lcd_print_secondLoop b k with
    | none => rw [hr2] at h; cases h
    | some t2 =>
      rw [hr2] at h
      rw [lcd_print_secondLoop_append b ext k t2 hr2]
      exact h
  by_cases h1 : line = 1
  · subst h1; exact key1 h
  · by_cases h2 : line = 2
    · subst h2; exact key2 h
    · rw [lcd_print_WithPosition_invalid_line _ line k h1 h2] at h ⊢
      exact key1 h

theorem lcd_print_bounded (b : List Nat) (line : Nat) (h : 33 ≤ b.length) :
    ∃ t, lcd_print (some b) line = some t ∧ (characterBytes t).length ≤ 32 := by
  have key1 : ∃ t, lcd_print (some b) 1 = some t ∧ (characterBytes t).length ≤ 32 := by
    obtain ⟨first, second, h1, h2, hs | hs⟩ := lcd_print_first_line_shape b h
    · refine ⟨_, hs, ?_⟩
      rw [characterBytes_one_line, List.length_map]; omega
    · refine ⟨_, hs, ?_⟩
      rw [characterBytes_two_lines, List.length_append, List.length_map, List.length_map]
      omega
  by_cases h1 : line = 1
  · subst h1; exact key1
  · by_cases h2 : line = 2
    · subst h2
      obtain ⟨first, h1, hs⟩ := lcd_print_second_line_shape b h
      refine ⟨_, hs, ?_⟩
      rw [characterBytes_one_line, List.length_map]; omega
    · rw [lcd_print_invalid_line _ line h1 h2]; exact key1

theorem lcd_print_WithPosition_bounded (b : List Nat) (line k : Nat) (h : 33 ≤ b.length) :
    ∃ t, lcd_print_WithPosition (some b) line k = some t ∧
      (characterBytes t).length ≤ 32 := by
  have key1 : ∃ t, lcd_print_WithPosition (some b) 1 k = some t ∧
      (characterBytes t).length ≤ 32 := by
    obtain ⟨first, second, h1, h2, hs | hs⟩ := lcd_print_WithPosition_first_line_shape b k h
    · refine ⟨_, hs, ?_⟩
      rw [characterBytes_one_line, List.length_map]; omega
    · refine ⟨_, hs, ?_⟩
      rw [characterBytes_two_lines, List.length_append, List.length_map, List.length_map]
      omega
  by_cases h1 : line = 1
  · subst h1; exact key1
  · by_cases h2 : line = 2
    · subst h2
      obtain ⟨first, h1, hs⟩ := lcd_print_WithPosition_second_line_shape b k h
      refine ⟨_, hs, ?_⟩
      rw [characterBytes_one_line, List.length_map]; omega
    · rw [lcd_print_WithPosition_invalid_line _ line k h1 h2]; exact key1

/-! ## Claim C24: the prints stay inside the 50-byte buffer -/

/-- C24: for every 50-byte text buffer, with or without a NUL byte, and for
every line and offset, `lcd_print` and `lcd_print_WithPosition` run to
completion and produce a trace; that trace is already produced from the first
33 bytes alone, so no index above 32 is read; and the controller receives at
most 32 characters. -/
theorem C24_prints_stay_in_buffer (buf : List Nat) (line k : Nat)
    (hlen : buf.length = MAX_BUF_LENGTH) :
    (∃ t, lcd_print (some buf) line = some t ∧
      lcd_print (some (buf.take 33)) line = some t ∧
      (characterBytes t).length ≤ 32) ∧
    (∃ t, lcd_print_WithPosition (some buf) line k = some t ∧
      lcd_print_WithPosition (some (buf.take 33)) line k = some t ∧
      (characterBytes t).length ≤ 32) := by
  simp only [MAX_BUF_LENGTH] at hlen
  have h33 : 33 ≤ (buf.take 33).length := by
    simp only [List.length_take]; omega
  constructor
  · obtain ⟨t, ht, hc⟩ := lcd_print_bounded (buf.take 33) line h33
    refine ⟨t, ?_, ht, hc⟩
    have h := lcd_print_append (buf.take 33) (buf.drop 33) line t ht
    rwa [List.take_append_drop] at h
  · obtain ⟨t, ht, hc⟩ := lcd_print_WithPosition_bounded (buf.take 33) line k h33
    refine ⟨t, ?_, ht, hc⟩
    have h := lcd_print_WithPosition_append (buf.take 33) (buf.drop 33) line k t ht
    rwa [List.take_append_drop] at h

theorem C24_prints_stay_in_buffer_witness :
    (List.replicate 50 65).length = MAX_BUF_LENGTH ∧
    ((∃ t, lcd_print (some (List.replicate 50 65)) 1 = some t ∧
      lcd_print (some ((List.replicate 50 65).take 33)) 1 = some t ∧
      (characterBytes t).length ≤ 32) ∧
    (∃ t, lcd_print_WithPosition (some (List.replicate 50 65)) 1 4000000000 = some t ∧
      lcd_print_WithPosition (some ((List.replicate 50 65).take 33)) 1 4000000000 = some t ∧
      (characterBytes t).length ≤ 32)) :=
  ⟨by decide, C24_prints_stay_in_buffer (List.replicate 50 65) 1 4000000000 (by decide)⟩

/-! ## The shape of every print trace -/

theorem lcd_print_firstLoop_chars (b : List Nat) (c l : Nat) (t : Trace) (m : List Nat)
    (c' l' : Nat) (h : lcd_print_firstLoop b c l = some (t, m, c', l')) :
    ∃ chars : List Nat, t = chars.flatMap sendCharacter := by
  induction b generalizing c t with
  | nil => simp [lcd_print_firstLoop] at h
  | cons x xs ih =>
    by_cases hx : x = 0
    · simp only [lcd_print_firstLoop, hx, if_true, Option.some.injEq, Prod.mk.injEq] at h
      exact ⟨[], h.1.symm⟩
    · by_cases hge : c ≥ NUM_CHARS_PER_LINE
      · simp only [lcd_print_firstLoop, hx, hge, if_true, if_false, Option.some.injEq,
          Prod.mk.injEq] at h
        exact ⟨[], h.1.symm⟩
      · simp only [lcd_print_firstLoop, hx, hge, if_false] at h
        cases hr : lcd_print_firstLoop xs (c + 1) l with
        | none => rw [hr] at h; cases h
        | some r =>
          obtain ⟨t1, m1, c1, l1⟩ := r
          rw [hr] at h
          simp only [Option.some.injEq, Prod.mk.injEq] at h
          obtain ⟨ht, hm, hc, hl⟩ := h
          subst hm; subst hc; subst hl
          obtain ⟨chars, hchars⟩ := ih (c + 1) t1 hr
          refine ⟨x :: chars, ?_⟩
          rw [← ht, hchars, List.flatMap_cons, lcd_data_eq_sendCharacter]

theorem lcd_print_secondLoop_chars (b : List Nat) (c : Nat) (t : Trace)
    (h : lcd_print_secondLoop b c = some t) :
    ∃ chars : List Nat, t = chars.flatMap sendCharacter := by
  induction b generalizing c t with
  | nil => simp [lcd_print_secondLoop] at h
  | cons x xs ih =>
    by_cases hx : x = 0
    · simp only [lcd_print_secondLoop, hx, if_true, Option.some.injEq] at h
      exact ⟨[], h.symm⟩
    · by_cases hge : c ≥ NUM_CHARS_PER_LINE
      · simp only [lcd_print_secondLoop, hx, hge, if_true, if_false, Option.some.injEq] at h
        exact ⟨[], h.symm⟩
      · simp only [lcd_print_secondLoop, hx, hge, if_false] at h
        cases hr : lcd_print_secondLoop xs (c + 1) with
        | none => rw [hr] at h; cases h
        | some t1 =>
          rw [hr] at h
          simp only [Option.some.injEq] at h
          obtain ⟨chars, hchars⟩ := ih (c + 1) t1 hr
          refine ⟨x :: chars, ?_⟩
          rw [← h, hchars, List.flatMap_cons, lcd_data_eq_sendCharacter]

theorem lcd_print_WithPosition_firstLoop_chars (b : List Nat) (c l p : Nat) (t : Trace)
    (m : List Nat) (c' l' p' : Nat)
    (h : lcd_print_WithPosition_firstLoop b c l p = some (t, m, c', l', p')) :
    (∃ chars : List Nat, t = chars.flatMap sendCharacter) ∧ (p' = p ∨ p' = 0) := by
  induction b generalizing c t with
  | nil => simp [lcd_print_WithPosition_firstLoop] at h
  | cons x xs ih =>
    by_cases hx : x = 0
    · simp only [lcd_print_WithPosition_firstLoop, hx, if_true, Option.some.injEq,
        Prod.mk.injEq] at h
      exact ⟨⟨[], h.1.symm⟩, Or.inl h.2.2.2.2.symm⟩
    · by_cases hge : c ≥ NUM_CHARS_PER_LINE
      · simp only [lcd_print_WithPosition_firstLoop, hx, hge, if_true, if_false,
          Option.some.injEq, Prod.mk.injEq] at h
        exact ⟨⟨[], h.1.symm⟩, Or.inr h.2.2.2.2.symm⟩
      · simp only [lcd_print_WithPosition_firstLoop, hx, hge, if_false] at h
        cases hr : lcd_print_WithPosition_firstLoop xs (c + 1) l p with
        | none => rw [hr] at h; cases h
        | some r =>
          obtain ⟨t1, m1, c1, l1, p1⟩ := r
          rw [hr] at h
          simp only [Option.some.injEq, Prod.mk.injEq] at h
          obtain ⟨ht, hm, hc, hl, hp'⟩ := h
          subst hm; subst hc; subst hl; subst hp'
          obtain ⟨⟨chars, hchars⟩, hp⟩ := ih (c + 1) t1 hr
          refine ⟨⟨x :: chars, ?_⟩, hp⟩
          rw [← ht, hchars, List.flatMap_cons, lcd_data_eq_sendCharacter]

/-! ## The strobe discipline of the transfers -/

theorem strobed_sendNibble (n m : Nat) (rest : Trace) :
    strobed Strobe.idle (sendNibble n m ++ rest) = strobed Strobe.idle rest := by
  rfl

theorem strobed_sendInstruction (a : Nat) (rest : Trace) :
    strobed Strobe.idle (sendInstruction a ++ rest) = strobed Strobe.idle rest := by
  rw [sendInstruction, List.append_assoc, strobed_sendNibble, strobed_sendNibble]

theorem strobed_sendCharacter (c : Nat) (rest : Trace) :
    strobed Strobe.idle (sendCharacter c ++ rest) = strobed Strobe.idle rest := by
  rw [sendCharacter, List.append_assoc, strobed_sendNibble, strobed_sendNibble]

theorem strobed_characters (chars : List Nat) (rest : Trace) :
    strobed Strobe.idle (chars.flatMap sendCharacter ++ rest) = strobed Strobe.idle rest := by
  induction chars with
  | nil => rfl
  | cons c cs ih =>
    rw [List.flatMap_cons, List.append_assoc, strobed_sendCharacter, ih]

theorem wellStrobed_one_line (a : Nat) (chars : List Nat) :
    wellStrobed (sendInstruction a ++ chars.flatMap sendCharacter) = true := by
  have h := strobed_characters chars []
  rw [List.append_nil] at h
  rw [wellStrobed, strobed_sendInstruction, h]
  rfl

theorem wellStrobed_two_lines (a b : Nat) (first second : List Nat) :
    wellStrobed (sendInstruction a ++ first.flatMap sendCharacter ++
      sendInstruction b ++ second.flatMap sendCharacter) = true := by
  have h := strobed_characters second []
  rw [List.append_nil] at h
  rw [wellStrobed, List.append_assoc, List.append_assoc, strobed_sendInstruction,
    strobed_characters, strobed_sendInstruction, h]
  rfl

theorem wellStrobed_lcd_print (msg : Option (List Nat)) (line : Nat) (t : Trace)
    (h : lcd_print msg line = some t) : wellStrobed t = true := by
  cases msg with
  | none =>
    simp only [lcd_print, Option.some.injEq] at h
    rw [← h]; rfl
  | some b =>
    have key1 : lcd_print (some b) 1 = some t → wellStrobed t = true := by
      intro h
      rw [lcd_print_line1_eq] at h
      cases hr : lcd_print_firstLoop b 0 1 with
      | none => rw [hr] at h; cases h
      | some r =>
        obtain ⟨t1, m, c, l⟩ := r
        rw [hr] at h
        dsimp only at h
        obtain ⟨chars, hchars⟩ := lcd_print_firstLoop_chars b 0 1 t1 m c l hr
        by_cases hl : l = 2
        · rw [if_pos hl] at h
          cases hr2 : lcd_print_secondLoop m c with
          | none => rw [hr2] at h; cases h
          | some t2 =>
            rw [hr2] at h
            obtain ⟨chars2, hchars2⟩ := lcd_print_secondLoop_chars m c t2 hr2
            simp only [Option.some.injEq] at h
            rw [← h, hchars, hchars2, lcd_setLinePosition_first, lcd_setLinePosition_second]
            exact wellStrobed_two_lines _ _ _ _
        · rw [if_neg hl] at h
          simp only [Option.some.injEq] at h
          rw [← h, hchars, lcd_setLinePosition_first]
          exact wellStrobed_one_line _ _
    by_cases h1 : line = 1
    · subst h1; exact key1 h
    · by_cases h2 : line = 2
      · subst h2
        rw [lcd_print_line2_eq] at h
        cases hr2 : lcd_print_secondLoop b 0 with
        | none => rw [hr2] at h; cases h
        | some t2 =>
          rw [hr2] at h
          obtain ⟨chars2, hchars2⟩ := lcd_print_secondLoop_chars b 0 t2 hr2
          simp only [Option.some.injEq] at h
          rw [← h, hchars2, lcd_setLinePosition_second]
          exact wellStrobed_one_line _ _
      · rw [lcd_print_invalid_line _ line h1 h2] at h
        exact key1 h

theorem wellStrobed_lcd_print_WithPosition (msg : Option (List Nat)) (line k : Nat)
    (t : Trace) (h : lcd_print_WithPosition msg line k = some t) : wellStrobed t = true := by
  cases msg with
  | none =>
    simp only [lcd_print_WithPosition, Option.some.injEq] at h
    rw [← h]; rfl
  | some b =>
    have key1 : lcd_print_WithPosition (some b) 1 k = some t → wellStrobed t = true := by
      intro h
      rw [lcd_print_WithPosition_line1_eq] at h
      cases hr : lcd_print_WithPosition_firstLoop b k 1 k with
      | none => rw [hr] at h; cases h
      | some r =>
        obtain ⟨t1, m, c, l, p⟩ := r
        rw [hr] at h
        dsimp only at h
        obtain ⟨⟨chars, hchars⟩, _⟩ :=
          lcd_print_WithPosition_firstLoop_chars b k 1 k t1 m c l p hr
        by_cases hl : l = 2
        · rw [if_pos hl] at h
          cases hr2 : lcd_print_secondLoop m c with
          | none => rw [hr2] at h; cases h
          | some t2 =>
            rw [hr2] at h
            obtain ⟨chars2, hchars2⟩ := lcd_print_secondLoop_chars m c t2 hr2
            simp only [Option.some.injEq] at h
            rw [← h, hchars, hchars2, lcd_setPosition_first_any, lcd_setPosition_second_any]
            exact wellStrobed_two_lines _ _ _ _
        · rw [if_neg hl] at h
          simp only [Option.some.injEq] at h
          rw [← h, hchars, lcd_setPosition_first_any]
          exact wellStrobed_one_line _ _
    by_cases h1 : line = 1
    · subst h1; exact key1 h
    · by_cases h2 : line = 2
      · subst h2
        rw [lcd_print_WithPosition_line2_eq] at h
        cases hr2 : lcd_print_secondLoop b k with
        | none => rw [hr2] at h; cases h
        | some t2 =>
          rw [hr2] at h
          obtain ⟨chars2, hchars2⟩ := lcd_print_secondLoop_chars b k t2 hr2
          simp only [Option.some.injEq] at h
          rw [← h, hchars2, lcd_setPosition_second_any]
          exact wellStrobed_one_line _ _
      · rw [lcd_print_WithPosition_invalid_line _ line k h1 h2] at h
        exact key1 h

/-- The checker is not vacuous: it rejects E rising before the five lines are
written, a data line written while E is high, and a trace that leaves E high. -/
theorem wellStrobed_rejects :
    wellStrobed [Event.gpio_set_value LCD_DB7_PIN_NUMBER 1,
      Event.gpio_set_value LCD_E_PIN_NUMBER 1, Event.gpio_set_value LCD_E_PIN_NUMBER 0] = false ∧
    wellStrobed (sendNibble 3 0 ++ [Event.gpio_set_value LCD_RS_PIN_NUMBER 0,
      Event.gpio_set_value LCD_DB4_PIN_NUMBER 0, Event.gpio_set_value LCD_DB5_PIN_NUMBER 0,
      Event.gpio_set_value LCD_DB6_PIN_NUMBER 0, Event.gpio_set_value LCD_DB7_PIN_NUMBER 0,
      Event.gpio_set_value LCD_E_PIN_NUMBER 1, Event.gpio_set_value LCD_DB4_PIN_NUMBER 1,
      Event.gpio_set_value LCD_E_PIN_NUMBER 0]) = false ∧
    wellStrobed ((sendNibble 3 0).take 8) = false := by
  decide

/-! ## Claim C25: the strobe discipline of every operation -/

/-- C25: starting with E low, in the trace of `lcd_instruction`, `lcd_data`,
`lcd_initialize`, `lcd_setLinePosition`, `lcd_setPosition`, the clear and
cursor commands, and in every trace that `lcd_print` and
`lcd_print_WithPosition` produce, RS and DB4..DB7 are never written while E is
high, all five are written before each rise of E, every rise of E is followed
by its fall before any other line is written, and E is low at the end. -/
theorem C25_strobe_discipline (c d line k : Nat) (msg : Option (List Nat))
    (t1 t2 : Trace) (h1 : lcd_print msg line = some t1)
    (h2 : lcd_print_WithPosition msg line k = some t2) :
    wellStrobed (lcd_instruction c) = true ∧
    wellStrobed (lcd_data d) = true ∧
    wellStrobed lcd_initialize = true ∧
    wellStrobed (lcd_setLinePosition line) = true ∧
    wellStrobed (lcd_setPosition line k) = true ∧
    wellStrobed lcd_clearDisplay = true ∧
    wellStrobed lcd_cursor_on = true ∧
    wellStrobed lcd_cursor_off = true ∧
    wellStrobed t1 = true ∧
    wellStrobed t2 = true := by
  have hset : ∀ ln : Nat, wellStrobed (lcd_setPosition ln k) = true := by
    intro ln
    by_cases h1 : ln = 1
    · subst h1
      rw [lcd_setPosition_first_any]
      exact wellStrobed_one_line _ []
    · by_cases h2 : ln = 2
      · subst h2
        rw [lcd_setPosition_second_any]
        exact wellStrobed_one_line _ []
      · simp only [lcd_setPosition, h1, h2, if_false]
        rfl
  refine ⟨?_, ?_, by decide, ?_, hset line, by decide, by decide, by decide,
    wellStrobed_lcd_print msg line t1 h1, wellStrobed_lcd_print_WithPosition msg line k t2 h2⟩
  · rw [lcd_instruction_eq_sendNibble]
    rfl
  · have h' := strobed_sendCharacter d []
    rw [List.append_nil] at h'
    rw [lcd_data_eq_sendCharacter, wellStrobed, h']
    rfl
  · rw [lcd_setLinePosition_eq_setPosition_zero]
    have h0 : ∀ ln : Nat, wellStrobed (lcd_setPosition ln 0) = true := by
      intro ln
      by_cases h1 : ln = 1
      · subst h1; decide
      · by_cases h2 : ln = 2
        · subst h2; decide
        · simp only [lcd_setPosition, h1, h2, if_false]
          rfl
    exact h0 line

theorem C25_strobe_discipline_witness :
    lcd_print (some [104, 105, 0]) 1 =
      some (sendInstruction 0x80 ++ sendCharacter 104 ++ sendCharacter 105) ∧
    lcd_print_WithPosition (some [104, 105, 0]) 1 15 =
      some (sendInstruction 0x8F ++ sendCharacter 104 ++ sendInstruction 0xC0 ++
        sendCharacter 105) ∧
    wellStrobed (sendInstruction 0x80 ++ sendCharacter 104 ++ sendCharacter 105) = true ∧
    wellStrobed (sendInstruction 0x8F ++ sendCharacter 104 ++ sendInstruction 0xC0 ++
        sendCharacter 105) = true :=
  ⟨by decide, by decide,
    (C25_strobe_discipline 0 0 1 15 (some [104, 105, 0])
      (sendInstruction 0x80 ++ sendCharacter 104 ++ sendCharacter 105)
      (sendInstruction 0x8F ++ sendCharacter 104 ++ sendInstruction 0xC0 ++ sendCharacter 105)
      (by decide) (by decide)).2.2.2.2.2.2.2.2.1,
    (C25_strobe_discipline 0 0 1 15 (some [104, 105, 0])
      (sendInstruction 0x80 ++ sendCharacter 104 ++ sendCharacter 105)
      (sendInstruction 0x8F ++ sendCharacter 104 ++ sendInstruction 0xC0 ++ sendCharacter 105)
      (by decide) (by decide)).2.2.2.2.2.2.2.2.2⟩

end Klcd
